import Mathlib

/-!
Verification of the itinerary-construction pipeline of the langgraph-app
travel-planner repository.

The Python sources are shallowly embedded:
  * JSON values (results of `json.loads`) become the inductive type `Json`;
    JSON numbers are modelled as exact rationals (the Python code manipulates
    them as IEEE floats; all properties below are stated over the exact
    decimal values the replies carry).
  * `json.loads` is modelled by `jsonParseL` (RFC 8259 grammar as accepted by
    Python's json module: strict literals, no leading zeros, `\uXXXX` escapes
    with surrogate-pair combination; the non-standard NaN/Infinity constants
    and lone surrogates are outside the model).
  * Fallible Python code (raising exceptions) becomes `Except String`.
  * The network calls (Groq LLM, Tavily search) are external collaborators:
    the LLM reply text and the search response are parameters.
-/

/- A JSON value, as produced by `json.loads`.  Objects keep their key/value
pairs in document order (later duplicates win on lookup, as in a Python
dict built by the json module). -/
mutual
inductive Json where
  | null : Json
  | bool : Bool → Json
  | num : ℚ → Json
  | str : String → Json
  | arr : JsonArr → Json
  | obj : JsonObj → Json
deriving DecidableEq

inductive JsonArr where
  | nil : JsonArr
  | cons : Json → JsonArr → JsonArr
deriving DecidableEq

inductive JsonObj where
  | nil : JsonObj
  | cons : String → Json → JsonObj → JsonObj
deriving DecidableEq
end

def JsonArr.toList : JsonArr → List Json
  | .nil => []
  | .cons v r => v :: r.toList

def JsonArr.ofList : List Json → JsonArr
  | [] => .nil
  | v :: r => .cons v (JsonArr.ofList r)

def JsonObj.pairs : JsonObj → List (String × Json)
  | .nil => []
  | .cons k v r => (k, v) :: r.pairs

def JsonObj.ofPairs : List (String × Json) → JsonObj
  | [] => .nil
  | (k, v) :: r => .cons k v (JsonObj.ofPairs r)

/-- Lookup in a JSON object / Python dict: the last binding of a key wins
(later duplicate keys overwrite earlier ones in `json.loads`). -/
def jsonGet (m : List (String × Json)) (k : String) : Option Json :=
  m.reverse.lookup k

/-- Python truthiness of a JSON value (`if not x`): `None`, `False`, `0`,
`""`, `[]`, `{}` are falsy. -/
def Json.truthy : Json → Bool
  | .null => false
  | .bool b => b
  | .num q => q != 0
  | .str s => s != ""
  | .arr .nil => false
  | .arr (.cons _ _) => true
  | .obj .nil => false
  | .obj (.cons _ _ _) => true

/-- Numeric view of a JSON value for Python arithmetic (`+`, `abs`, `-`):
numbers are themselves, booleans are ints 0/1, everything else is a
`TypeError`. -/
def Json.asNum : Json → Option ℚ
  | .num q => some q
  | .bool b => some (if b then 1 else 0)
  | _ => none

/-- Model of Python `dict.get(k)` as used for optional fields: an absent key
and a key bound to JSON `null` both yield `None`. -/
def getOpt (m : List (String × Json)) (k : String) : Option Json :=
  match jsonGet m k with
  | some .null => none
  | v => v

/-- A calendar date as carried by a Python `datetime` parsed from a
`YYYY-MM-DD` string (midnight time component omitted). -/
structure Date where
  year : Nat
  month : Nat
  day : Nat
deriving DecidableEq

/-- Chronological key of a date: `datetime` comparison is lexicographic on
(year, month, day); for calendar-valid dates this encoding is
order-faithful. -/
def Date.key (d : Date) : Nat :=
  d.year * 10000 + d.month * 100 + d.day

def isLeapYear (y : Nat) : Bool :=
  y % 4 = 0 && (y % 100 != 0 || y % 400 = 0)

def daysInMonth (y m : Nat) : Nat :=
  if m = 2 then (if isLeapYear y then 29 else 28)
  else if m = 4 ∨ m = 6 ∨ m = 9 ∨ m = 11 then 30
  else 31

def digitVal (c : Char) : Nat := c.toNat - 48

/-- Month field of CPython's `strptime` regex `1[0-2]|0[1-9]|[1-9]`:
alternatives tried left to right, so an unpadded single digit is accepted. -/
def matchMonth : List Char → Option (Nat × List Char)
  | '1' :: c :: r =>
    if '0' ≤ c ∧ c ≤ '2' then some (10 + digitVal c, r) else some (1, c :: r)
  | '0' :: c :: r =>
    if '1' ≤ c ∧ c ≤ '9' then some (digitVal c, r) else none
  | c :: r =>
    if '1' ≤ c ∧ c ≤ '9' then some (digitVal c, r) else none
  | [] => none

/-- Day field of CPython's `strptime` regex `3[01]|[12]\d|0[1-9]|[1-9]`. -/
def matchDay : List Char → Option (Nat × List Char)
  | '3' :: c :: r =>
    if c = '0' ∨ c = '1' then some (30 + digitVal c, r) else some (3, c :: r)
  | '1' :: c :: r =>
    if c.isDigit then some (10 + digitVal c, r) else some (1, c :: r)
  | '2' :: c :: r =>
    if c.isDigit then some (20 + digitVal c, r) else some (2, c :: r)
  | '0' :: c :: r =>
    if '1' ≤ c ∧ c ≤ '9' then some (digitVal c, r) else none
  | c :: r =>
    if '1' ≤ c ∧ c ≤ '9' then some (digitVal c, r) else none
  | [] => none

/-- Model of `datetime.strptime(s, "%Y-%m-%d")`: exactly four year digits,
month and day per the regexes above (unpadded single digits accepted), the
whole string consumed, and the resulting triple a valid proleptic-Gregorian
calendar date with year ≥ 1 (`datetime` range check). -/
def parseDateYMD (s : String) : Option Date :=
  match s.data with
  | y1 :: y2 :: y3 :: y4 :: '-' :: rest =>
    if y1.isDigit ∧ y2.isDigit ∧ y3.isDigit ∧ y4.isDigit then
      let y := digitVal y1 * 1000 + digitVal y2 * 100 + digitVal y3 * 10 + digitVal y4
      match matchMonth rest with
      | some (m, rest2) =>
        match rest2 with
        | '-' :: rest3 =>
          match matchDay rest3 with
          | some (d, []) =>
            if 1 ≤ y ∧ 1 ≤ d ∧ d ≤ daysInMonth y m then some ⟨y, m, d⟩ else none
          | _ => none
        | _ => none
      | none => none
    else none
  | _ => none

/-! JSON text parsing: a model of Python `json.loads`. -/

def isJsonWs (c : Char) : Bool :=
  c = ' ' || c = '\t' || c = '\n' || c = '\r'

def skipWs (l : List Char) : List Char := l.dropWhile isJsonWs

/-- Strip leading and trailing JSON whitespace; `json.loads` ignores exactly
this surrounding whitespace. -/
def trimWs (cs : List Char) : List Char :=
  ((cs.dropWhile isJsonWs).reverse.dropWhile isJsonWs).reverse

def isHexDigit (c : Char) : Bool :=
  c.isDigit || ('a' ≤ c && c ≤ 'f') || ('A' ≤ c && c ≤ 'F')

def hexVal (c : Char) : Nat :=
  if c.isDigit then c.toNat - 48
  else if 'a' ≤ c && c ≤ 'f' then c.toNat - 87
  else c.toNat - 55

/-- Scan a JSON string body (opening quote already consumed): escapes
`\" \\ \/ \b \f \n \r \t \uXXXX`, raw control characters rejected (strict
mode).  Surrogate-pair recombination is outside the model (Lean `Char` has
no surrogates); no property below involves them. -/
def scanJStr (acc : List Char) : List Char → Except String (String × List Char)
  | [] => .error "Unterminated string starting at"
  | '"' :: r => .ok (String.mk acc.reverse, r)
  | '\\' :: '"' :: r => scanJStr ('"' :: acc) r
  | '\\' :: '\\' :: r => scanJStr ('\\' :: acc) r
  | '\\' :: '/' :: r => scanJStr ('/' :: acc) r
  | '\\' :: 'b' :: r => scanJStr ('\x08' :: acc) r
  | '\\' :: 'f' :: r => scanJStr ('\x0c' :: acc) r
  | '\\' :: 'n' :: r => scanJStr ('\n' :: acc) r
  | '\\' :: 'r' :: r => scanJStr ('\r' :: acc) r
  | '\\' :: 't' :: r => scanJStr ('\t' :: acc) r
  | '\\' :: 'u' :: a :: b :: c :: d :: r =>
    if isHexDigit a ∧ isHexDigit b ∧ isHexDigit c ∧ isHexDigit d then
      scanJStr (Char.ofNat (((hexVal a * 16 + hexVal b) * 16 + hexVal c) * 16 + hexVal d) :: acc) r
    else .error "Invalid \\uXXXX escape"
  | '\\' :: _ => .error "Invalid \\escape"
  | c :: r =>
    if c.toNat < 0x20 then .error "Invalid control character"
    else scanJStr (c :: acc) r

def digitsToNat (ds : List Char) : Nat :=
  ds.foldl (fun n c => n * 10 + digitVal c) 0

/-- Scan a JSON number per the json module's NUMBER_RE:
`(-?(?:0|[1-9]\d*))(\.\d+)?([eE][-+]?\d+)?` (no leading `+`, no leading
zeros, no bare `.5`/`5.`), returning its exact rational value. -/
def scanNumber (l : List Char) : Except String (Json × List Char) :=
  let (neg, l1) : Bool × List Char :=
    match l with
    | '-' :: r => (true, r)
    | _ => (false, l)
  let intScan : Option (Nat × List Char) :=
    match l1 with
    | '0' :: r => some (0, r)
    | c :: r =>
      if '1' ≤ c ∧ c ≤ '9' then
        some (digitsToNat (c :: r.takeWhile Char.isDigit), r.dropWhile Char.isDigit)
      else none
    | [] => none
  match intScan with
  | none => .error "Expecting value"
  | some (ip, l2) =>
    let (fracDigits, l3) : List Char × List Char :=
      match l2 with
      | '.' :: r =>
        match r.takeWhile Char.isDigit with
        | [] => ([], l2)
        | ds => (ds, r.dropWhile Char.isDigit)
      | _ => ([], l2)
    let (expVal, l4) : Int × List Char :=
      match l3 with
      | e :: r =>
        if e = 'e' ∨ e = 'E' then
          match r with
          | '-' :: r2 =>
            match r2.takeWhile Char.isDigit with
            | [] => (0, l3)
            | ds => (-(digitsToNat ds : Int), r2.dropWhile Char.isDigit)
          | '+' :: r2 =>
            match r2.takeWhile Char.isDigit with
            | [] => (0, l3)
            | ds => ((digitsToNat ds : Int), r2.dropWhile Char.isDigit)
          | _ =>
            match r.takeWhile Char.isDigit with
            | [] => (0, l3)
            | ds => ((digitsToNat ds : Int), r.dropWhile Char.isDigit)
        else (0, l3)
      | [] => (0, l3)
    let base : ℚ := (ip : ℚ) + (digitsToNat fracDigits : ℚ) / (10 ^ fracDigits.length : ℚ)
    let scaled : ℚ :=
      if 0 ≤ expVal then base * 10 ^ expVal.toNat else base / 10 ^ (-expVal).toNat
    .ok (Json.num (if neg then -scaled else scaled), l4)

mutual
def parseVal : Nat → List Char → Except String (Json × List Char)
  | 0, _ => .error "Recursion limit exceeded"
  | f + 1, l =>
    match skipWs l with
    | '{' :: r =>
      match parseMembersStart f r with
      | .ok (ms, r') => .ok (Json.obj (JsonObj.ofPairs ms), r')
      | .error e => .error e
    | '[' :: r =>
      match parseElemsStart f r with
      | .ok (vs, r') => .ok (Json.arr (JsonArr.ofList vs), r')
      | .error e => .error e
    | '"' :: r =>
      match scanJStr [] r with
      | .ok (s, r') => .ok (Json.str s, r')
      | .error e => .error e
    | 't' :: 'r' :: 'u' :: 'e' :: r => .ok (Json.bool true, r)
    | 'f' :: 'a' :: 'l' :: 's' :: 'e' :: r => .ok (Json.bool false, r)
    | 'n' :: 'u' :: 'l' :: 'l' :: r => .ok (Json.null, r)
    | l' => scanNumber l'

def parseElemsStart : Nat → List Char → Except String (List Json × List Char)
  | 0, _ => .error "Recursion limit exceeded"
  | f + 1, l =>
    match skipWs l with
    | ']' :: r => .ok ([], r)
    | l' => parseElemsLoop f l'

def parseElemsLoop : Nat → List Char → Except String (List Json × List Char)
  | 0, _ => .error "Recursion limit exceeded"
  | f + 1, l =>
    match parseVal f l with
    | .error e => .error e
    | .ok (v, r) =>
      match skipWs r with
      | ',' :: r2 =>
        match parseElemsLoop f r2 with
        | .ok (vs, r3) => .ok (v :: vs, r3)
        | .error e => .error e
      | ']' :: r2 => .ok ([v], r2)
      | _ => .error "Expecting comma delimiter"

def parseMembersStart : Nat → List Char → Except String (List (String × Json) × List Char)
  | 0, _ => .error "Recursion limit exceeded"
  | f + 1, l =>
    match skipWs l with
    | '}' :: r => .ok ([], r)
    | l' => parseMembersLoop f l'

def parseMembersLoop : Nat → List Char → Except String (List (String × Json) × List Char)
  | 0, _ => .error "Recursion limit exceeded"
  | f + 1, l =>
    match skipWs l with
    | '"' :: r =>
      match scanJStr [] r with
      | .error e => .error e
      | .ok (k, r1) =>
        match skipWs r1 with
        | ':' :: r2 =>
          match parseVal f r2 with
          | .error e => .error e
          | .ok (v, r3) =>
            match skipWs r3 with
            | ',' :: r4 =>
              match parseMembersLoop f r4 with
              | .ok (ms, r5) => .ok ((k, v) :: ms, r5)
              | .error e => .error e
            | '}' :: r4 => .ok ([(k, v)], r4)
            | _ => .error "Expecting comma delimiter"
        | _ => .error "Expecting colon delimiter"
    | _ => .error "Expecting property name enclosed in double quotes"
end

instance {ε α : Type} [DecidableEq ε] [DecidableEq α] : DecidableEq (Except ε α) := fun a b =>
  match a, b with
  | .ok x, .ok y =>
    if h : x = y then .isTrue (by rw [h]) else .isFalse (by simp [h])
  | .error x, .error y =>
    if h : x = y then .isTrue (by rw [h]) else .isFalse (by simp [h])
  | .ok _, .error _ => .isFalse (by simp)
  | .error _, .ok _ => .isFalse (by simp)

/-- Model of `json.loads`: surrounding whitespace is irrelevant, one value,
nothing but whitespace may follow it.  (Fuel is a function of the trimmed
input and is ample for any input the fuel can reach.) -/
def jsonParseL (cs : List Char) : Except String Json :=
  let t := trimWs cs
  match parseVal (2 * t.length + 4) t with
  | .ok (v, []) => .ok v
  | .ok _ => .error "Extra data"
  | .error e => .error e


/-! Extraction of the JSON payload from the raw LLM reply
(`ItineraryBuilder._parse_llm_response`). -/

/-- Model of Python's substring test `sep in l` for strings. -/
def containsSeq (sep : List Char) : List Char → Bool
  | [] => sep.isEmpty
  | c :: r => sep.isPrefixOf (c :: r) || containsSeq sep r

/-- Model of Python `str.split(sep)` for a non-empty separator: leftmost,
non-overlapping matches.  `skip` counts separator characters still to be
consumed after a match (keeping the recursion structural). -/
def splitGo (sep : List Char) (acc : List Char) (skip : Nat) : List Char → List (List Char)
  | [] => [acc.reverse]
  | c :: r =>
    match skip with
    | k + 1 => splitGo sep acc k r
    | 0 =>
      if sep.isPrefixOf (c :: r) then
        acc.reverse :: splitGo sep [] (sep.length - 1) r
      else
        splitGo sep (c :: acc) 0 r

def splitOnSeq (sep l : List Char) : List (List Char) := splitGo sep [] 0 l

def fenceChars : List Char := ['`', '`', '`']
def fenceJsonChars : List Char := ['`', '`', '`', 'j', 's', 'o', 'n']

/-- Extraction policy of `_parse_llm_response`: if `"```json"` occurs in the
reply, take the text between its first occurrence and the next `"```"`;
else if `"```"` occurs, take the text between its first and second
occurrences; else the whole reply. -/
def extractJsonPayload (cs : List Char) : List Char :=
  if containsSeq fenceJsonChars cs then
    (splitOnSeq fenceChars ((splitOnSeq fenceJsonChars cs).getD 1 [])).getD 0 []
  else if containsSeq fenceChars cs then
    (splitOnSeq fenceChars cs).getD 1 []
  else cs

/-- Model of `ItineraryBuilder._parse_llm_response`: extract the payload,
parse it as JSON, wrap a parse failure in the builder's message. -/
def parse_llm_response (response : String) : Except String Json :=
  match jsonParseL (extractJsonPayload response.data) with
  | .ok v => .ok v
  | .error e => .error ("Failed to parse LLM response as JSON: " ++ e)


/-! The domain records of the pipeline (dataclasses of the Python sources,
fields that Python leaves dynamically typed are carried as `Json`). -/

/-- Dataclass `Hotel` of `tools/search_hotels.py`. -/
structure Hotel where
  name : String
  address : Option String
  price_per_night : Option ℚ
  rating : Option ℚ
  amenities : List String
  room_type : Option String
  booking_url : Option String
  latitude : Option ℚ
  longitude : Option ℚ
  images : List String
  description : String
  source : String
deriving DecidableEq

/-- Dataclass `Attraction` of `tools/search_attractions.py`. -/
structure Attraction where
  name : String
  description : String
  category : String
  rating : Option ℚ
  price_level : Option String
  opening_hours : Option String
  address : Option String
  website : Option String
  images : List String
  source : String
  popularity_score : Option ℚ
  best_time_to_visit : Option String
  visit_duration : Option String
deriving DecidableEq

/-- Dataclass `TripPreferences` of `tools/parse_trip_prefs.py` (the typed
record consumed by prompt composition and itinerary assembly). -/
structure TripPreferences where
  destination : String
  start_date : Date
  end_date : Date
  budget : ℚ
  travel_style : String
  interests : List String
  accommodation_preference : String
  transportation_preference : String
  dietary_restrictions : Json := Json.null
  special_requirements : Json := Json.null
deriving DecidableEq

/-- Dataclass `Activity` of `tools/build_itinerary.py`: the required fields
are stored exactly as found in the reply (Python performs no type check on
them), the optional ones via `dict.get`. -/
structure Activity where
  name : Json
  start_time : Json
  end_time : Json
  location : Json
  description : Json
  category : Json
  cost : Option Json
  booking_url : Option Json
  notes : Option Json
deriving DecidableEq

/-- Dataclass `DayPlan` of `tools/build_itinerary.py`. -/
structure DayPlan where
  date : Date
  activities : List Activity
  total_cost : ℚ
  notes : Option Json
deriving DecidableEq

/-- Dataclass `Itinerary` of `tools/build_itinerary.py`. -/
structure Itinerary where
  destination : String
  start_date : Date
  end_date : Date
  daily_plans : List DayPlan
  total_cost : ℚ
  travel_style : String
  interests : List String
  hotel : Option Hotel
  summary : Json
deriving DecidableEq

/-! The reconciliation pipeline (`ItineraryBuilder.build_itinerary`). -/

/-- Python `m[k]` on a dict: the value, or a `KeyError` naming the key. -/
def requireKey (m : List (String × Json)) (k : String) : Except String Json :=
  match jsonGet m k with
  | some v => .ok v
  | none => .error ("KeyError: '" ++ k ++ "'")

/-- One `Activity(...)` construction of the per-day comprehension: the six
named fields are mandatory dict indexing (KeyError when absent), the three
`.get` fields default to `None`. -/
def mkActivity (act : Json) : Except String Activity :=
  match act with
  | .obj o =>
    let m := o.pairs
    match requireKey m "name" with
    | .error e => .error e
    | .ok n =>
      match requireKey m "start_time" with
      | .error e => .error e
      | .ok st =>
        match requireKey m "end_time" with
        | .error e => .error e
        | .ok et =>
          match requireKey m "location" with
          | .error e => .error e
          | .ok loc =>
            match requireKey m "description" with
            | .error e => .error e
            | .ok desc =>
              match requireKey m "category" with
              | .error e => .error e
              | .ok cat =>
                .ok { name := n, start_time := st, end_time := et, location := loc,
                      description := desc, category := cat,
                      cost := getOpt m "cost", booking_url := getOpt m "booking_url",
                      notes := getOpt m "notes" }
  | _ => .error "TypeError: string indices must be integers"

/-- The activity list comprehension, in document order, first failure
aborting. -/
def mkActivities : List Json → Except String (List Activity)
  | [] => .ok []
  | a :: rest =>
    match mkActivity a with
    | .error e => .error e
    | .ok x =>
      match mkActivities rest with
      | .error e => .error e
      | .ok xs => .ok (x :: xs)

/-- One iteration of the `for day_data in itinerary_data["daily_plans"]`
loop, in source order: build the activities, read the day's `total_cost`
verbatim (it must be a number for the `+=` accumulation), then parse the
day's `date` strictly before constructing the `DayPlan`. -/
def processDay (day : Json) : Except String DayPlan :=
  match day with
  | .obj o =>
    let m := o.pairs
    match requireKey m "activities" with
    | .error e => .error e
    | .ok av =>
      match av with
      | .arr aa =>
        match mkActivities aa.toList with
        | .error e => .error e
        | .ok activities =>
          match requireKey m "total_cost" with
          | .error e => .error e
          | .ok tcv =>
            match tcv.asNum with
            | none => .error "TypeError: unsupported operand type(s) for +="
            | some day_cost =>
              match requireKey m "date" with
              | .error e => .error e
              | .ok dv =>
                match dv with
                | .str ds =>
                  match parseDateYMD ds with
                  | none => .error ("time data '" ++ ds ++ "' does not match format '%Y-%m-%d'")
                  | some d =>
                    .ok { date := d, activities := activities, total_cost := day_cost,
                          notes := getOpt m "notes" }
                | _ => .error "TypeError: strptime() argument 1 must be str"
      | _ => .error "TypeError: 'Json' object is not iterable"
  | _ => .error "TypeError: string indices must be integers"

def processDays : List Json → Except String (List DayPlan)
  | [] => .ok []
  | d :: rest =>
    match processDay d with
    | .error e => .error e
    | .ok p =>
      match processDays rest with
      | .error e => .error e
      | .ok ps => .ok (p :: ps)

/-- The grand total accumulated by the loop: the sum of the per-day
`total_cost` values taken verbatim from the reply. -/
def sumDayCosts (plans : List DayPlan) : ℚ :=
  (plans.map DayPlan.total_cost).sum

/-- Step 5 (assembly): read the reply's `summary` (KeyError when absent) and
combine it with the preference fields, the chosen hotel, the validated
plans and the accumulated total. -/
def assembleItinerary (trip_prefs : TripPreferences) (hotel : Option Hotel)
    (m : List (String × Json)) (plans : List DayPlan) : Except String Itinerary :=
  match requireKey m "summary" with
  | .error e => .error e
  | .ok sm =>
    .ok { destination := trip_prefs.destination, start_date := trip_prefs.start_date,
          end_date := trip_prefs.end_date, daily_plans := plans,
          total_cost := sumDayCosts plans, travel_style := trip_prefs.travel_style,
          interests := trip_prefs.interests, hotel := hotel, summary := sm }

/-- The body of the `try` block of `ItineraryBuilder.build_itinerary`: the
raw reply text is the (external) LLM response.  Empty reply rejected; reply
parsed and extracted; `daily_plans` must be present and truthy; each day
processed in order; the accumulated grand total compared with the reply's
top-level `total_cost` under the 0.01 tolerance; finally assembly. -/
def build_itinerary_steps (trip_prefs : TripPreferences) (hotel : Option Hotel)
    (response_text : String) : Except String Itinerary :=
  if response_text = "" then .error "Empty response from LLM"
  else
    match parse_llm_response response_text with
    | .error e => .error e
    | .ok data =>
      match data with
      | .obj o =>
        let m := o.pairs
        match jsonGet m "daily_plans" with
        | none => .error "No daily plans in itinerary"
        | some dp =>
          if dp.truthy = false then .error "No daily plans in itinerary"
          else
            match dp with
            | .arr dl =>
              match processDays dl.toList with
              | .error e => .error e
              | .ok plans =>
                match requireKey m "total_cost" with
                | .error e => .error e
                | .ok tcv =>
                  match tcv.asNum with
                  | none => .error "TypeError: unsupported operand type(s) for -"
                  | some reported =>
                    if 1 / 100 < |sumDayCosts plans - reported| then
                      .error "Total cost mismatch in itinerary"
                    else
                      assembleItinerary trip_prefs hotel m plans
            | _ => .error "TypeError: 'Json' object is not iterable"
      | _ => .error "AttributeError: object has no attribute 'get'"

/-- `ItineraryBuilder.build_itinerary`: every failure of the pipeline is
caught by the enclosing `except` and re-raised as the single build-error
kind wrapping the cause message. -/
def build_itinerary (trip_prefs : TripPreferences) (hotel : Option Hotel)
    (response_text : String) : Except String Itinerary :=
  match build_itinerary_steps trip_prefs hotel response_text with
  | .ok it => .ok it
  | .error e => .error ("Failed to build itinerary: " ++ e)

def prefsParis : TripPreferences :=
  { destination := "Paris", start_date := ⟨2024, 6, 1⟩, end_date := ⟨2024, 6, 7⟩,
    budget := 2000, travel_style := "moderate", interests := ["culture", "food"],
    accommodation_preference := "hotel", transportation_preference := "mixed" }

def replyTwoDays : String :=
  "\x7b\"daily_plans\": [\x7b\"date\": \"2024-06-01\", \"activities\": [], \"total_cost\": 100.0\x7d, \x7b\"date\": \"2024-06-02\", \"activities\": [], \"total_cost\": 100.0\x7d], \"total_cost\": 200.0, \"summary\": \"Two days in Paris\"\x7d"


/-! Prompt composition (`ItineraryBuilder._create_llm_prompt` and
`_format_attractions_for_prompt`). -/

/-- Rendering of `datetime.date()` in an f-string: zero-padded ISO
`YYYY-MM-DD`. -/
def dateIso (d : Date) : String :=
  (if d.year < 10 then "000" else if d.year < 100 then "00" else if d.year < 1000 then "0" else "")
    ++ toString d.year ++ "-"
    ++ (if d.month < 10 then "0" else "") ++ toString d.month ++ "-"
    ++ (if d.day < 10 then "0" else "") ++ toString d.day

def fracDigitChars (fuel : Nat) (num den : Nat) : List Char :=
  match fuel with
  | 0 => []
  | fuel + 1 =>
    if num = 0 then []
    else Char.ofNat (48 + num * 10 / den) :: fracDigitChars fuel (num * 10 % den) den

/-- Stand-in for Python `str(float)` on the exact rationals of the model:
renders sign, integer part and the terminating decimal expansion (an
integer-valued float gets the trailing `.0` Python prints).  No property
below depends on the rendered digits. -/
def pyFloatStr (q : ℚ) : String :=
  let sign := if q < 0 then "-" else ""
  let n := q.num.natAbs
  let intPart := toString (n / q.den)
  let frac := fracDigitChars 30 (n % q.den) q.den
  sign ++ intPart ++ "." ++ (if frac = [] then "0" else String.mk frac)

/-- Python `x or 'Not specified'` on an optional string field (`None` and
the empty string are falsy). -/
def strOrNotSpecified : Option String → String
  | some s => if s = "" then "Not specified" else s
  | none => "Not specified"

/-- Python `attraction.rating or 'Not specified'` (a 0.0 rating is falsy). -/
def ratingOrNotSpecified : Option ℚ → String
  | some r => if r = 0 then "Not specified" else pyFloatStr r
  | none => "Not specified"

def attractionLines (i : Nat) : List Attraction → List String
  | [] => []
  | a :: rest =>
    (toString i ++ ". " ++ a.name)
      :: ("   Category: " ++ a.category)
      :: ("   Duration: " ++ strOrNotSpecified a.visit_duration)
      :: ("   Price Level: " ++ strOrNotSpecified a.price_level)
      :: ("   Rating: " ++ ratingOrNotSpecified a.rating ++ "/5.0")
      :: ""
      :: attractionLines (i + 1) rest

/-- `ItineraryBuilder._format_attractions_for_prompt`. -/
def format_attractions_for_prompt (attractions : List Attraction) : String :=
  String.intercalate "\n" (attractionLines 1 attractions)

/-- Python `str(hotel.address)` under `if hotel` (an absent address renders
as the string `None`). -/
def optAddr : Option String → String
  | some s => s
  | none => "None"

/-- `ItineraryBuilder._create_llm_prompt`: the deterministic prompt text, an
exact transcription of the f-string (literal braces of the JSON schema
written as hex escapes). -/
def create_llm_prompt (trip_prefs : TripPreferences) (hotel : Option Hotel)
    (attractions : List Attraction) : String :=
  "Create a detailed travel itinerary for a trip to " ++ trip_prefs.destination
    ++ " \nfrom " ++ dateIso trip_prefs.start_date ++ " to " ++ dateIso trip_prefs.end_date
    ++ ".\n\nTravel Style: " ++ trip_prefs.travel_style
    ++ "\nBudget: $" ++ pyFloatStr trip_prefs.budget
    ++ "\nInterests: " ++ String.intercalate ", " trip_prefs.interests
    ++ "\n\nHotel: " ++ (match hotel with | some h => h.name | none => "Not selected yet")
    ++ "\nHotel Location: " ++ (match hotel with | some h => optAddr h.address | none => "Not available")
    ++ "\n\nAvailable Attractions:\n" ++ format_attractions_for_prompt attractions
    ++ "\n\nPlease create a day-by-day itinerary that:\n1. Optimizes time and location (group nearby attractions)\n2. Matches the travel style and budget\n3. Includes a mix of activities based on interests\n4. Includes reasonable travel times between locations\n5. Includes meal times and rest periods\n6. Provides estimated costs for each activity\n7. Considers opening hours and visit durations\n8. Includes transportation between locations\n9. Accounts for weather and seasonal factors\n10. Includes backup activities in case of bad weather\n\nFormat the response as a JSON object with the following structure:\n\x7b\n    \"daily_plans\": [\n        \x7b\n            \"date\": \"YYYY-MM-DD\",\n            \"activities\": [\n                \x7b\n                    \"name\": \"Activity name\",\n                    \"start_time\": \"HH:MM\",\n                    \"end_time\": \"HH:MM\",\n                    \"location\": \"Location name\",\n                    \"description\": \"Brief description\",\n                    \"category\": \"Activity category\",\n                    \"cost\": 0.0,\n                    \"booking_url\": \"Optional URL\",\n                    \"notes\": \"Optional notes\"\n                \x7d\n            ],\n            \"total_cost\": 0.0,\n            \"notes\": \"Optional day notes\"\n        \x7d\n    ],\n    \"total_cost\": 0.0,\n    \"summary\": \"Brief trip summary\"\n\x7d\n\nEnsure all dates are in YYYY-MM-DD format and times are in HH:MM 24-hour format.\nMake sure the total cost matches the sum of all activity costs.\nInclude realistic travel times between locations.\nConsider local customs and peak hours for attractions.\n"

/-! Preference parsing (`tools/parse_trip_prefs.py`, the backwards-compatible
`parse_trip_preferences`). -/

def isPyWs (c : Char) : Bool :=
  c = ' ' || c = '\t' || c = '\n' || c = '\r' || c = '\x0b' || c = '\x0c'

/-- Model of Python `float(str)`: surrounding whitespace stripped, optional
sign, decimal digits with optional point and exponent ( `.5`, `5.`, `1e3`
accepted; at least one mantissa digit required).  `inf`/`nan` and
underscore separators are outside the model; no property below involves
them. -/
def parsePyFloat (s : String) : Option ℚ :=
  let t := ((s.data.dropWhile isPyWs).reverse.dropWhile isPyWs).reverse
  let (neg, t1) : Bool × List Char :=
    match t with
    | '-' :: r => (true, r)
    | '+' :: r => (false, r)
    | _ => (false, t)
  let intDs := t1.takeWhile Char.isDigit
  let t2 := t1.dropWhile Char.isDigit
  let (fracDs, t3) : List Char × List Char :=
    match t2 with
    | '.' :: r => (r.takeWhile Char.isDigit, r.dropWhile Char.isDigit)
    | _ => ([], t2)
  if intDs = [] ∧ fracDs = [] then none
  else
    let base : ℚ := (digitsToNat intDs : ℚ) + (digitsToNat fracDs : ℚ) / (10 ^ fracDs.length : ℚ)
    let signed := if neg then -base else base
    match t3 with
    | [] => some signed
    | e :: r =>
      if e = 'e' ∨ e = 'E' then
        let (eneg, r1) : Bool × List Char :=
          match r with
          | '-' :: r2 => (true, r2)
          | '+' :: r2 => (false, r2)
          | _ => (false, r)
        match r1.takeWhile Char.isDigit with
        | [] => none
        | ds =>
          if r1.dropWhile Char.isDigit = [] then
            some (if eneg then signed / 10 ^ digitsToNat ds else signed * 10 ^ digitsToNat ds)
          else none
      else none

/-- Python `float(x)` on a form value: numbers and booleans convert,
numeric strings parse, anything else is a `TypeError`. -/
def pyFloatOf : Json → Option ℚ
  | .num q => some q
  | .bool b => some (if b then 1 else 0)
  | .str s => parsePyFloat s
  | _ => none

/-- The `AgentState` dict of `tools/parse_trip_prefs.py`: the keys the
parser reads and writes, `none` meaning the key is absent.  Values Python
leaves dynamically typed are carried as `Json`. -/
structure AgentState where
  user_input : Option (List (String × Json)) := none
  destination : Option Json := none
  start_date : Option Date := none
  end_date : Option Date := none
  budget : Option ℚ := none
  travel_style : Option Json := none
  interests : Option Json := none
  accommodation_preference : Option Json := none
  transportation_preference : Option Json := none
  dietary_restrictions : Option Json := none
  special_requirements : Option Json := none
  destination_insights : Option Json := none
  personalized_recommendations : Option Json := none
  error : Option String := none
deriving DecidableEq

def requiredFields : List String :=
  ["destination", "start_date", "end_date", "budget",
   "travel_style", "interests", "accommodation_preference",
   "transportation_preference"]

def firstMissing (ui : List (String × Json)) : List String → Option String
  | [] => none
  | k :: ks => if (jsonGet ui k).isNone then some k else firstMissing ui ks

/-- `parse_trip_preferences` (the backwards-compatible variant): required
keys checked in order, dates parsed strictly and ordered strictly, budget
converted by `float` and required positive (`validate_budget`), then the
state is populated with the `asdict` of the `TripPreferences` and
`user_input` is dropped; every failure instead records `str(e)` in
`state["error"]` and leaves the rest of the state untouched. -/
def parse_trip_preferences (state : AgentState) : AgentState :=
  let ui := state.user_input.getD []
  match firstMissing ui requiredFields with
  | some k => { state with error := some ("Missing required field: " ++ k) }
  | none =>
    match jsonGet ui "start_date" with
    | some (.str sd) =>
      (match parseDateYMD sd with
      | none => { state with error := some "Date must be in YYYY-MM-DD format" }
      | some d1 =>
        match jsonGet ui "end_date" with
        | some (.str ed) =>
          (match parseDateYMD ed with
          | none => { state with error := some "Date must be in YYYY-MM-DD format" }
          | some d2 =>
            if d2.key ≤ d1.key then
              { state with error := some "End date must be after start date" }
            else
              match (jsonGet ui "budget").bind pyFloatOf with
              | none => { state with error := some "Invalid budget value" }
              | some q =>
                if q ≤ 0 then { state with error := some "Invalid budget value" }
                else
                  { state with
                    user_input := none,
                    destination := jsonGet ui "destination",
                    start_date := some d1,
                    end_date := some d2,
                    budget := some q,
                    travel_style := jsonGet ui "travel_style",
                    interests := jsonGet ui "interests",
                    accommodation_preference := jsonGet ui "accommodation_preference",
                    transportation_preference := jsonGet ui "transportation_preference",
                    dietary_restrictions := some ((jsonGet ui "dietary_restrictions").getD .null),
                    special_requirements := some ((jsonGet ui "special_requirements").getD .null),
                    destination_insights := some .null,
                    personalized_recommendations := some .null })
        | some _ => { state with error := some "TypeError: strptime() argument 1 must be str" }
        | none => { state with error := some "Missing required field: end_date" })
    | some _ => { state with error := some "TypeError: strptime() argument 1 must be str" }
    | none => { state with error := some "Missing required field: start_date" }

/-! Hotel retrieval (`tools/search_hotels.py`): the HTTP round trip is an
external collaborator; what is modelled is everything the code does with
the decoded response. -/

/-- One entry of `response.json()["results"]`, typed per the Tavily search
API wire contract (string fields, each possibly absent). -/
structure SearchResult where
  title : Option String := none
  content : Option String := none
  url : Option String := none
  source : Option String := none
  address : Option String := none
deriving DecidableEq

/-- `HotelSearcher._extract_price`: leftmost match of
`\$(\d+(?:\.\d{2})?)` (greedy digits, then optionally a point and exactly
two digits), as a rational. -/
def extract_price_scan : List Char → Option ℚ
  | [] => none
  | '$' :: r =>
    (match r.takeWhile Char.isDigit with
    | [] => extract_price_scan r
    | ds =>
      match r.dropWhile Char.isDigit with
      | '.' :: d1 :: d2 :: _ =>
        if d1.isDigit ∧ d2.isDigit then
          some ((digitsToNat ds : ℚ) + ((digitVal d1 * 10 + digitVal d2 : Nat) : ℚ) / 100)
        else some ((digitsToNat ds : ℚ))
      | _ => some ((digitsToNat ds : ℚ)))
  | _ :: r => extract_price_scan r

def extract_price (text : String) : Option ℚ := extract_price_scan text.data

/-- The `\s*\/\s*5` tail of the rating regex. -/
def slashFive (l : List Char) : Bool :=
  match l.dropWhile isPyWs with
  | '/' :: r =>
    (match r.dropWhile isPyWs with
    | '5' :: _ => true
    | _ => false)
  | _ => false

/-- `HotelSearcher._extract_rating`: leftmost match of
`(\d+(?:\.\d)?)\s*\/\s*5`.  Greedy digits never need shrinking (a shorter
digit run is followed by a digit, which neither the optional fraction nor
the `/` tail accepts), so the scan tries each start position once. -/
def extract_rating_scan : List Char → Option ℚ
  | [] => none
  | c :: r =>
    if c.isDigit then
      let ds := c :: r.takeWhile Char.isDigit
      let r1 := r.dropWhile Char.isDigit
      match r1 with
      | '.' :: d :: r2 =>
        if d.isDigit ∧ slashFive r2 then
          some ((digitsToNat ds : ℚ) + ((digitVal d : Nat) : ℚ) / 10)
        else extract_rating_scan r
      | _ => if slashFive r1 then some ((digitsToNat ds : ℚ)) else extract_rating_scan r
    else extract_rating_scan r

def extract_rating (text : String) : Option ℚ := extract_rating_scan text.data

def strContains (s sub : String) : Bool := containsSeq sub.data s.data

/-- The `amenity_keywords` table of `_parse_hotel_from_search_result`, in
dict insertion order. -/
def amenity_keywords : List (String × List String) :=
  [("wifi", ["wifi", "wireless internet", "free wifi"]),
   ("pool", ["pool", "swimming pool", "indoor pool", "outdoor pool"]),
   ("gym", ["gym", "fitness center", "workout room"]),
   ("restaurant", ["restaurant", "dining", "breakfast", "room service"]),
   ("spa", ["spa", "massage", "wellness center"]),
   ("parking", ["parking", "free parking", "valet parking"]),
   ("bar", ["bar", "lounge", "pub"]),
   ("conference", ["conference room", "meeting room", "business center"]),
   ("laundry", ["laundry", "dry cleaning", "washing machine"]),
   ("air_conditioning", ["air conditioning", "ac", "climate control"]),
   ("elevator", ["elevator", "lift"]),
   ("accessibility", ["wheelchair accessible", "disabled access"]),
   ("pet_friendly", ["pet friendly", "pets allowed"]),
   ("shuttle", ["shuttle", "airport shuttle", "free shuttle"]),
   ("kitchen", ["kitchen", "kitchenette", "cooking facilities"])]

def amenitiesOf (description : String) : List String :=
  (amenity_keywords.filter
    (fun kv => kv.2.any (fun kw => strContains description.toLower kw))).map Prod.fst

/-- `HotelSearcher._parse_hotel_from_search_result`. -/
def parse_hotel_from_search_result (result : SearchResult) : Hotel :=
  let description := result.content.getD ""
  { name := ((result.title.getD "").splitOn " - ").headD "",
    address := (match result.address with | some "" => none | x => x),
    price_per_night := extract_price description,
    rating := extract_rating description,
    amenities := amenitiesOf description,
    room_type := none,
    booking_url := result.url,
    latitude := none, longitude := none, images := [],
    description := description,
    source := result.source.getD "Unknown" }

/-- The sort key of `hotels.sort(key=lambda x: x.rating or 0, reverse=True)`:
an absent (or 0.0, falsy) rating counts as 0. -/
def hotelSortKey (h : Hotel) : ℚ := h.rating.getD 0

/-- Stable descending insertion by rating key: `h` goes after every earlier
hotel with a strictly greater key and before the first with a key not
greater, reproducing the stable `list.sort(..., reverse=True)`. -/
def insertRatingDesc (h : Hotel) : List Hotel → List Hotel
  | [] => [h]
  | x :: xs =>
    if hotelSortKey h < hotelSortKey x then x :: insertRatingDesc h xs
    else h :: x :: xs

def sort_by_rating_desc : List Hotel → List Hotel
  | [] => []
  | x :: xs => insertRatingDesc x (sort_by_rating_desc xs)

/-- `HotelSearcher.search_hotels` after the HTTP round trip: the argument is
the outcome of `requests.post` + `raise_for_status` + `.json().get("results", [])`
(`.error` = transport failure or non-2xx status, both `requests.RequestException`).
Zero results raise; otherwise each result is parsed and the list is sorted
by rating, descending. -/
def search_hotels (resp : Except String (List SearchResult)) : Except String (List Hotel) :=
  match resp with
  | .error e => .error ("API request failed: " ++ e)
  | .ok [] => .error "No hotels found matching your criteria"
  | .ok results => .ok (sort_by_rating_desc (results.map parse_hotel_from_search_result))

/-! Display formatting (`utils/formatter.py`). -/

/-- The `average_daily_cost` entry computed by
`ItineraryFormatter.format_budget_analysis`:
`itinerary.total_cost / len(itinerary.daily_plans)`. -/
def average_daily_cost (it : Itinerary) : ℚ :=
  it.total_cost / (it.daily_plans.length : ℚ)


/-- A reply day entry in document order (`date`, `activities`, `total_cost`). -/
def dayJson (dateStr : String) (acts : List Json) (total : ℚ) : Json :=
  .obj (.ofPairs [("date", .str dateStr),
                  ("activities", .arr (JsonArr.ofList acts)),
                  ("total_cost", .num total)])

def dlTwoDays : JsonArr :=
  .ofList [dayJson "2024-06-01" [] 100, dayJson "2024-06-02" [] 100]

/-- The parsed object of `replyTwoDays`. -/
def objTwoDays : JsonObj :=
  .ofPairs [("daily_plans", .arr dlTwoDays),
            ("total_cost", .num 200),
            ("summary", .str "Two days in Paris")]

def plansTwoDays : List DayPlan :=
  [⟨⟨2024, 6, 1⟩, [], 100, none⟩, ⟨⟨2024, 6, 2⟩, [], 100, none⟩]


/-- The activity entry of `replyMisreport`, parsed (document order). -/
def actLouvreObj : JsonObj :=
  .ofPairs [("name", .str "Louvre"), ("start_time", .str "09:00"),
            ("end_time", .str "12:00"), ("location", .str "Paris"),
            ("description", .str "Museum visit"), ("category", .str "culture"),
            ("cost", .num 50)]

def actLouvre : Json := .obj actLouvreObj

/-- The single (misreporting) day entry of `replyMisreport`, parsed. -/
def dayMisreportJson : Json := dayJson "2024-06-01" [actLouvre] 100

/-- The `DayPlan` the builder constructs from `dayMisreportJson`. -/
def planMisreport : DayPlan :=
  ⟨⟨2024, 6, 1⟩,
   [⟨.str "Louvre", .str "09:00", .str "12:00", .str "Paris",
     .str "Museum visit", .str "culture", some (.num 50), none, none⟩],
   100, none⟩


/-- A reply whose `daily_plans` is present but empty. -/
def replyEmptyPlans : String :=
  "\x7b\"daily_plans\": [], \"total_cost\": 0.0, \"summary\": \"x\"\x7d"

/-- The parsed object of `replyEmptyPlans`. -/
def objEmptyPlans : JsonObj :=
  .ofPairs [("daily_plans", .arr .nil), ("total_cost", .num 0), ("summary", .str "x")]


/-- No occurrence of the closing fence starts strictly inside `A` when `A`
is followed by the fence itself (the scanning invariant of the split that
isolates a fenced block). -/
def noFenceStartIn : List Char → Bool
  | [] => true
  | c :: r => !(fenceChars.isPrefixOf ((c :: r) ++ fenceChars)) && noFenceStartIn r

/-! Derived observations on replies, and concrete fixtures used by the
theorems below. -/

/-- The per-day `total_cost` value a reply reports for a day entry, as a
number. -/
def dayReportedTotal (day : Json) : Option ℚ :=
  match day with
  | .obj dm => (jsonGet dm.pairs "total_cost").bind Json.asNum
  | _ => none

/-- The `date` string a reply carries for a day entry, parsed. -/
def dayDateOf (day : Json) : Option Date :=
  match day with
  | .obj dm =>
    (match jsonGet dm.pairs "date" with
    | some (.str ds) => parseDateYMD ds
    | _ => none)
  | _ => none

/-- The sum of a constructed day's own activities' costs (absent or
non-numeric costs counting 0) — the quantity the builder never compares
against the day's reported total. -/
def dayActivitiesCostSum (p : DayPlan) : ℚ :=
  (p.activities.map (fun a => ((a.cost.bind Json.asNum).getD 0))).sum

/-- The spec's literal `YYYY-MM-DD` shape: exactly four digits, a dash, two
digits, a dash, two digits.  (Stated from the spec's words, to compare with
what `strptime` actually accepts.) -/
def isStrictYMD (s : String) : Bool :=
  match s.data with
  | [y1, y2, y3, y4, '-', m1, m2, '-', d1, d2] =>
    y1.isDigit && y2.isDigit && y3.isDigit && y4.isDigit &&
      m1.isDigit && m2.isDigit && d1.isDigit && d2.isDigit
  | _ => false

/-- A reply whose single day reports `total_cost` 100.00 while its only
activity costs 50.00; the grand total 100.00 matches the day totals. -/
def replyMisreport : String :=
  "\x7b\"daily_plans\": [\x7b\"date\": \"2024-06-01\", \"activities\": [\x7b\"name\": \"Louvre\", \"start_time\": \"09:00\", \"end_time\": \"12:00\", \"location\": \"Paris\", \"description\": \"Museum visit\", \"category\": \"culture\", \"cost\": 50.0\x7d], \"total_cost\": 100.0\x7d], \"total_cost\": 100.0, \"summary\": \"One day\"\x7d"

/-- A reply that is valid except that its day's date `2024-6-1` is not of
the literal `YYYY-MM-DD` shape. -/
def replyLenientDate : String :=
  "\x7b\"daily_plans\": [\x7b\"date\": \"2024-6-1\", \"activities\": [], \"total_cost\": 100.0\x7d], \"total_cost\": 100.0, \"summary\": \"One day\"\x7d"

/-- A syntactically valid JSON payload (a string literal) containing the
fence marker ` ``` ` inside itself. -/
def fencePayload : String := "\"a```5```b\""

/-- The reply JSON of the two-day scenario, parsed object form. -/
def itineraryTwoDays : Itinerary :=
  { destination := "Paris", start_date := ⟨2024, 6, 1⟩, end_date := ⟨2024, 6, 7⟩,
    daily_plans := [⟨⟨2024, 6, 1⟩, [], 100, none⟩, ⟨⟨2024, 6, 2⟩, [], 100, none⟩],
    total_cost := 200, travel_style := "moderate", interests := ["culture", "food"],
    hotel := none, summary := .str "Two days in Paris" }

/-- A fully populated form submission for the preference parser. -/
def uiParis : List (String × Json) :=
  [("destination", .str "Paris"), ("start_date", .str "2024-06-01"),
   ("end_date", .str "2024-06-07"), ("budget", .num 2000),
   ("travel_style", .str "moderate"),
   ("interests", .arr (.cons (.str "culture") (.cons (.str "food") .nil))),
   ("accommodation_preference", .str "hotel"),
   ("transportation_preference", .str "mixed")]

def stateOf (ui : List (String × Json)) : AgentState := { user_input := some ui }

/-- `uiParis` with a non-positive budget. -/
def uiZeroBudget : List (String × Json) :=
  [("destination", .str "Paris"), ("start_date", .str "2024-06-01"),
   ("end_date", .str "2024-06-07"), ("budget", .num 0),
   ("travel_style", .str "moderate"),
   ("interests", .arr (.cons (.str "culture") .nil)),
   ("accommodation_preference", .str "hotel"),
   ("transportation_preference", .str "mixed")]

/-- `uiParis` with equal start and end dates. -/
def uiEqualDates : List (String × Json) :=
  [("destination", .str "Paris"), ("start_date", .str "2024-06-01"),
   ("end_date", .str "2024-06-01"), ("budget", .num 2000),
   ("travel_style", .str "moderate"),
   ("interests", .arr (.cons (.str "culture") .nil)),
   ("accommodation_preference", .str "hotel"),
   ("transportation_preference", .str "mixed")]

/-- `uiParis` missing the `budget` key. -/
def uiNoBudget : List (String × Json) :=
  [("destination", .str "Paris"), ("start_date", .str "2024-06-01"),
   ("end_date", .str "2024-06-07"),
   ("travel_style", .str "moderate"),
   ("interests", .arr (.cons (.str "culture") .nil)),
   ("accommodation_preference", .str "hotel"),
   ("transportation_preference", .str "mixed")]

/-- Two unordered search results: an unrated hotel first, a rated one
second. -/
def searchResultsTwo : List SearchResult :=
  [{ title := some "Plain Inn - Booking", content := some "A simple stay." },
   { title := some "Grand Hotel - Booking",
     content := some "Rated 4.5 / 5 with pool and free wifi. Rooms from $120.00." }]

/-! Auxiliary lemmas about the pipeline. -/

lemma processDays_length {l : List Json} {ps : List DayPlan}
    (h : processDays l = .ok ps) : ps.length = l.length := by
  induction l generalizing ps with
  | nil => simp [processDays] at h; simp [← h]
  | cons d rest ih =>
    simp only [processDays] at h
    cases hd : processDay d with
    | error e => rw [hd] at h; exact absurd h (by simp)
    | ok p =>
      rw [hd] at h
      cases hrest : processDays rest with
      | error e => rw [hrest] at h; exact absurd h (by simp)
      | ok ps' =>
        rw [hrest] at h
        cases h
        simp [ih hrest]

lemma truthy_arr_ne_nil {dl : JsonArr} (h : (Json.arr dl).truthy = true) :
    dl.toList ≠ [] := by
  cases dl with
  | nil => simp [Json.truthy] at h
  | cons v r => simp [JsonArr.toList]

lemma build_steps_ok_inv {prefs : TripPreferences} {hotel : Option Hotel} {r : String}
    {it : Itinerary} (h : build_itinerary_steps prefs hotel r = .ok it) :
    ∃ o dl plans, parse_llm_response r = .ok (.obj o) ∧
      jsonGet o.pairs "daily_plans" = some (.arr dl) ∧
      (Json.arr dl).truthy = true ∧
      processDays dl.toList = .ok plans ∧
      it.daily_plans = plans := by
  unfold build_itinerary_steps at h
  split at h
  · exact absurd h (by simp)
  · split at h
    · exact absurd h (by simp)
    · rename_i data hparse
      split at h
      · rename_i o
        simp only [] at h
        split at h
        · exact absurd h (by simp)
        · rename_i dp hdp
          split at h
          · exact absurd h (by simp)
          · rename_i htruthy
            split at h
            · rename_i dl
              split at h
              · exact absurd h (by simp)
              · rename_i plans hplans
                split at h
                · exact absurd h (by simp)
                · rename_i tcv htcv
                  split at h
                  · exact absurd h (by simp)
                  · rename_i reported hnum
                    split at h
                    · exact absurd h (by simp)
                    · unfold assembleItinerary at h
                      split at h
                      · exact absurd h (by simp)
                      · rename_i sm hsm
                        cases h
                        exact ⟨o, dl, plans, hparse, hdp,
                          by simp_all, hplans, rfl⟩
            · exact absurd h (by simp)
      · exact absurd h (by simp)

/-! Claim theorems. -/

/-- C6: every failure anywhere in the build pipeline is re-signaled to the
caller as the single wrapped error kind (`ValueError("Failed to build
itinerary: " + cause)`), and no partial itinerary is returned: the caller
receives either a fully constructed `Itinerary` or exactly one wrapped
error. -/
theorem build_failures_rewrapped_single_kind (prefs : TripPreferences)
    (hotel : Option Hotel) (r : String) :
    (∃ it, build_itinerary prefs hotel r = .ok it) ∨
      (∃ msg, build_itinerary prefs hotel r =
        .error ("Failed to build itinerary: " ++ msg)) := by
  unfold build_itinerary
  cases h : build_itinerary_steps prefs hotel r with
  | ok it => exact .inl ⟨it, rfl⟩
  | error e => exact .inr ⟨e, rfl⟩

/-- C10: every itinerary the builder returns has a non-empty `daily_plans`
list (the empty case is rejected at structural validation), so the
formatter's `average_daily_cost = total_cost / len(daily_plans)` never
divides by zero on a built itinerary. -/
theorem built_itinerary_daily_plans_nonempty (prefs : TripPreferences)
    (hotel : Option Hotel) (r : String) (it : Itinerary)
    (h : build_itinerary prefs hotel r = .ok it) :
    it.daily_plans.length ≠ 0 ∧
      average_daily_cost it * (it.daily_plans.length : ℚ) = it.total_cost := by
  have hsteps : build_itinerary_steps prefs hotel r = .ok it := by
    unfold build_itinerary at h
    cases hs : build_itinerary_steps prefs hotel r with
    | ok it' => rw [hs] at h; cases h; rfl
    | error e => rw [hs] at h; exact absurd h (by simp)
  obtain ⟨o, dl, plans, _, _, htruthy, hplans, hdp⟩ := build_steps_ok_inv hsteps
  have hne : dl.toList ≠ [] := truthy_arr_ne_nil htruthy
  have hlen : plans.length = dl.toList.length := processDays_length hplans
  have hlen0 : it.daily_plans.length ≠ 0 := by
    rw [hdp, hlen]
    simpa using hne
  refine ⟨hlen0, ?_⟩
  unfold average_daily_cost
  rw [div_mul_cancel₀]
  exact_mod_cast hlen0

set_option maxRecDepth 10000 in
/-- Witness for C10 at the concrete two-day scenario. -/
theorem built_itinerary_daily_plans_nonempty_witness :
    itineraryTwoDays.daily_plans.length ≠ 0 ∧
      average_daily_cost itineraryTwoDays * (itineraryTwoDays.daily_plans.length : ℚ) =
        itineraryTwoDays.total_cost :=
  built_itinerary_daily_plans_nonempty prefsParis none replyTwoDays itineraryTwoDays
    (by with_unfolding_all decide)

lemma requireKey_ok_iff {m : List (String × Json)} {k : String} {v : Json} :
    requireKey m k = .ok v ↔ jsonGet m k = some v := by
  unfold requireKey
  cases h : jsonGet m k <;> simp

lemma arr_truthy_of_ne_nil {dl : JsonArr} (h : dl ≠ .nil) :
    (Json.arr dl).truthy = true := by
  cases dl with
  | nil => exact absurd rfl h
  | cons v r => rfl

/-- Reaching the consistency check: with all earlier steps fixed, the build
is decided by the tolerance comparison, then by assembly. -/
lemma build_steps_reaches_check (prefs : TripPreferences) (hotel : Option Hotel)
    {r : String} {o : JsonObj} {dl : JsonArr} {plans : List DayPlan}
    {tcv : Json} {t : ℚ}
    (hr : r ≠ "")
    (hparse : parse_llm_response r = .ok (.obj o))
    (hdp : jsonGet o.pairs "daily_plans" = some (.arr dl))
    (hne : dl ≠ JsonArr.nil)
    (hplans : processDays dl.toList = .ok plans)
    (htc : jsonGet o.pairs "total_cost" = some tcv)
    (hnum : tcv.asNum = some t) :
    build_itinerary_steps prefs hotel r =
      (if 1 / 100 < |sumDayCosts plans - t| then
        .error "Total cost mismatch in itinerary"
      else assembleItinerary prefs hotel o.pairs plans) := by
  have htcOk : requireKey o.pairs "total_cost" = .ok tcv := requireKey_ok_iff.mpr htc
  unfold build_itinerary_steps
  rw [if_neg hr]
  simp only [hparse, hdp, arr_truthy_of_ne_nil hne, hplans, htcOk, hnum]
  simp

/-- C1: for every parsed reply that reaches the consistency check (daily
plans present, truthy and all processed; top-level `total_cost` numeric),
construction aborts with an error exactly when the accumulated sum of
per-day totals differs from the reply's top-level `total_cost` by more
than 0.01; when it does not abort there, construction proceeds past the
check to assembly. -/
theorem total_cost_mismatch_aborts_iff (prefs : TripPreferences)
    (hotel : Option Hotel) (r : String) (o : JsonObj) (dl : JsonArr)
    (plans : List DayPlan) (tcv : Json) (t : ℚ)
    (hr : r ≠ "")
    (hparse : parse_llm_response r = .ok (.obj o))
    (hdp : jsonGet o.pairs "daily_plans" = some (.arr dl))
    (hne : dl ≠ JsonArr.nil)
    (hplans : processDays dl.toList = .ok plans)
    (htc : jsonGet o.pairs "total_cost" = some tcv)
    (hnum : tcv.asNum = some t) :
    (1 / 100 < |sumDayCosts plans - t| →
      build_itinerary prefs hotel r =
        .error "Failed to build itinerary: Total cost mismatch in itinerary") ∧
    (¬ 1 / 100 < |sumDayCosts plans - t| →
      build_itinerary_steps prefs hotel r =
        assembleItinerary prefs hotel o.pairs plans) := by
  have hsteps := build_steps_reaches_check prefs hotel
    hr hparse hdp hne hplans htc hnum
  constructor
  · intro hgt
    unfold build_itinerary
    rw [hsteps, if_pos hgt]
    rfl
  · intro hle
    rw [hsteps, if_neg hle]

set_option maxRecDepth 10000 in
/-- Witness for C1 at the two-day scenario (sum 200, reported 200: within
tolerance, so construction proceeds to assembly). -/
theorem total_cost_mismatch_aborts_iff_witness :
    (1 / 100 < |sumDayCosts plansTwoDays - 200| →
      build_itinerary prefsParis none replyTwoDays =
        .error "Failed to build itinerary: Total cost mismatch in itinerary") ∧
    (¬ 1 / 100 < |sumDayCosts plansTwoDays - 200| →
      build_itinerary_steps prefsParis none replyTwoDays =
        assembleItinerary prefsParis none objTwoDays.pairs plansTwoDays) :=
  total_cost_mismatch_aborts_iff prefsParis none replyTwoDays objTwoDays dlTwoDays
    plansTwoDays (.num 200) 200
    (by with_unfolding_all decide)
    (by with_unfolding_all decide)
    (by with_unfolding_all decide)
    (by with_unfolding_all decide)
    (by with_unfolding_all decide)
    (by with_unfolding_all decide)
    (by with_unfolding_all decide)

/-- Inverting a successful day construction: the plan's `total_cost` is the
day's reported total (taken verbatim), its date is the parsed `date`
string, and its activities come from the day's `activities` array. -/
lemma processDay_ok_spec {day : Json} {p : DayPlan} (h : processDay day = .ok p) :
    dayReportedTotal day = some p.total_cost ∧ dayDateOf day = some p.date := by
  unfold processDay at h
  split at h
  · rename_i o
    simp only [] at h
    split at h
    · exact absurd h (by simp)
    · rename_i av hav
      split at h
      · rename_i aa
        split at h
        · exact absurd h (by simp)
        · rename_i acts hacts
          split at h
          · exact absurd h (by simp)
          · rename_i tcv htcv
            split at h
            · exact absurd h (by simp)
            · rename_i day_cost hnum
              split at h
              · exact absurd h (by simp)
              · rename_i dv hdv
                split at h
                · rename_i ds
                  split at h
                  · exact absurd h (by simp)
                  · rename_i d hdate
                    cases h
                    refine ⟨?_, ?_⟩
                    · simp only [dayReportedTotal, requireKey_ok_iff.mp htcv]
                      simp [hnum]
                    · simp only [dayDateOf, requireKey_ok_iff.mp hdv]
                      simp [hdate]
                · exact absurd h (by simp)
      · exact absurd h (by simp)
  · exact absurd h (by simp)

lemma processDays_map_spec {l : List Json} {ps : List DayPlan}
    (h : processDays l = .ok ps) :
    l.map dayReportedTotal = ps.map (fun p => some p.total_cost) ∧
      l.map dayDateOf = ps.map (fun p => some p.date) := by
  induction l generalizing ps with
  | nil =>
    simp only [processDays] at h
    cases h
    simp
  | cons d rest ih =>
    simp only [processDays] at h
    cases hd : processDay d with
    | error e => rw [hd] at h; exact absurd h (by simp)
    | ok p =>
      rw [hd] at h
      cases hrest : processDays rest with
      | error e => rw [hrest] at h; exact absurd h (by simp)
      | ok ps' =>
        rw [hrest] at h
        cases h
        obtain ⟨h1, h2⟩ := processDay_ok_spec hd
        obtain ⟨ih1, ih2⟩ := ih hrest
        simp [h1, h2, ih1, ih2]

/-- C2: for every valid reply (non-empty daily plans all well-formed, grand
total within tolerance, summary present) the produced itinerary carries the
sum of the reply's per-day totals as `total_cost`, the reply's `summary`,
the preference fields and hotel unchanged, and one `DayPlan` per reply day
entry, in order. -/
theorem valid_reply_roundtrip (prefs : TripPreferences) (hotel : Option Hotel)
    (r : String) (o : JsonObj) (dl : JsonArr) (plans : List DayPlan)
    (tcv sm : Json) (t : ℚ)
    (hr : r ≠ "")
    (hparse : parse_llm_response r = .ok (.obj o))
    (hdp : jsonGet o.pairs "daily_plans" = some (.arr dl))
    (hne : dl ≠ JsonArr.nil)
    (hplans : processDays dl.toList = .ok plans)
    (htc : jsonGet o.pairs "total_cost" = some tcv)
    (hnum : tcv.asNum = some t)
    (htol : ¬ 1 / 100 < |sumDayCosts plans - t|)
    (hsm : jsonGet o.pairs "summary" = some sm) :
    build_itinerary prefs hotel r = .ok
      { destination := prefs.destination, start_date := prefs.start_date,
        end_date := prefs.end_date, daily_plans := plans,
        total_cost := sumDayCosts plans, travel_style := prefs.travel_style,
        interests := prefs.interests, hotel := hotel, summary := sm } ∧
    sumDayCosts plans = (plans.map DayPlan.total_cost).sum ∧
    dl.toList.map dayReportedTotal = plans.map (fun p => some p.total_cost) ∧
    dl.toList.map dayDateOf = plans.map (fun p => some p.date) ∧
    plans.length = dl.toList.length := by
  have hsteps := build_steps_reaches_check prefs hotel
    hr hparse hdp hne hplans htc hnum
  obtain ⟨hmap1, hmap2⟩ := processDays_map_spec hplans
  refine ⟨?_, rfl, hmap1, hmap2, processDays_length hplans⟩
  unfold build_itinerary
  rw [hsteps, if_neg htol]
  unfold assembleItinerary
  rw [requireKey_ok_iff.mpr hsm]

set_option maxRecDepth 10000 in
/-- Witness for C2: the spec's end-to-end scenario (two days of 100.00
each, top-level total 200.00). -/
theorem valid_reply_roundtrip_witness :
    build_itinerary prefsParis none replyTwoDays = .ok
      { destination := prefsParis.destination, start_date := prefsParis.start_date,
        end_date := prefsParis.end_date, daily_plans := plansTwoDays,
        total_cost := sumDayCosts plansTwoDays, travel_style := prefsParis.travel_style,
        interests := prefsParis.interests, hotel := none,
        summary := .str "Two days in Paris" } ∧
    sumDayCosts plansTwoDays = (plansTwoDays.map DayPlan.total_cost).sum ∧
    dlTwoDays.toList.map dayReportedTotal = plansTwoDays.map (fun p => some p.total_cost) ∧
    dlTwoDays.toList.map dayDateOf = plansTwoDays.map (fun p => some p.date) ∧
    plansTwoDays.length = dlTwoDays.toList.length :=
  valid_reply_roundtrip prefsParis none replyTwoDays objTwoDays dlTwoDays
    plansTwoDays (.num 200) (.str "Two days in Paris") 200
    (by with_unfolding_all decide)
    (by with_unfolding_all decide)
    (by with_unfolding_all decide)
    (by with_unfolding_all decide)
    (by with_unfolding_all decide)
    (by with_unfolding_all decide)
    (by with_unfolding_all decide)
    (by with_unfolding_all decide)
    (by with_unfolding_all decide)

set_option maxRecDepth 10000 in
/-- C4: a constructed day's `total_cost` is the reply's per-day value taken
verbatim, never recomputed from the day's activities; concretely, the reply
whose day reports 100.00 while its activities sum to 50.00 is accepted (its
grand total matching), and the produced plan carries 100.00. -/
theorem day_totals_taken_verbatim :
    (∀ (day : Json) (p : DayPlan), processDay day = .ok p →
      dayReportedTotal day = some p.total_cost) ∧
    (build_itinerary prefsParis none replyMisreport).map
        (fun it => (it.daily_plans.map DayPlan.total_cost,
                    it.daily_plans.map dayActivitiesCostSum)) =
      .ok ([100], [50]) :=
  ⟨fun _ _ h => (processDay_ok_spec h).1, by with_unfolding_all decide⟩

set_option maxRecDepth 10000 in
/-- Witness for C4's universal part at the misreporting day itself. -/
theorem day_totals_taken_verbatim_witness :
    dayReportedTotal dayMisreportJson = some planMisreport.total_cost :=
  day_totals_taken_verbatim.1 dayMisreportJson planMisreport
    (by with_unfolding_all decide)

lemma infix_append_left {α : Type} {t l : List α} (x : List α) (h : t <:+: l) :
    t <:+: x ++ l := by
  obtain ⟨s, e, rfl⟩ := h
  exact ⟨x ++ s, e, by simp⟩

lemma infix_append_right {α : Type} {t l : List α} (y : List α) (h : t <:+: l) :
    t <:+: l ++ y := by
  obtain ⟨s, e, rfl⟩ := h
  exact ⟨s, e ++ y, by simp⟩

set_option maxRecDepth 10000 in
/-- C7: the prompt composer is a pure function of its inputs, and for every
preference record, with no hotel chosen and no candidate attractions, its
output contains the literal destination, both trip dates (as rendered by
`datetime.date()`), and the `Not selected yet` hotel marker. -/
theorem prompt_pure_and_contains_fields (prefs : TripPreferences) :
    prefs.destination.data <:+: (create_llm_prompt prefs none []).data ∧
    (dateIso prefs.start_date).data <:+: (create_llm_prompt prefs none []).data ∧
    (dateIso prefs.end_date).data <:+: (create_llm_prompt prefs none []).data ∧
    "Not selected yet".data <:+: (create_llm_prompt prefs none []).data ∧
    (∀ (p2 : TripPreferences) (h2 : Option Hotel) (a2 : List Attraction),
      p2 = prefs → h2 = none → a2 = [] →
      create_llm_prompt p2 h2 a2 = create_llm_prompt prefs none []) := by
  refine ⟨?_, ?_, ?_, ?_, ?_⟩
  case _ =>
    simp only [create_llm_prompt, String.data_append, List.append_assoc]
    exact infix_append_left _ ⟨[], _, rfl⟩
  case _ =>
    simp only [create_llm_prompt, String.data_append, List.append_assoc]
    exact infix_append_left _ (infix_append_left _ (infix_append_left _ ⟨[], _, rfl⟩))
  case _ =>
    simp only [create_llm_prompt, String.data_append, List.append_assoc]
    exact infix_append_left _ (infix_append_left _ (infix_append_left _
      (infix_append_left _ (infix_append_left _ ⟨[], _, rfl⟩))))
  case _ =>
    simp only [create_llm_prompt, String.data_append, List.append_assoc]
    exact infix_append_left _ (infix_append_left _ (infix_append_left _
      (infix_append_left _ (infix_append_left _ (infix_append_left _
        (infix_append_left _ (infix_append_left _ (infix_append_left _
          (infix_append_left _ (infix_append_left _ (infix_append_left _
            (infix_append_left _ ⟨[], _, rfl⟩))))))))))))
  case _ =>
    intro p2 h2 a2 hp hh ha
    rw [hp, hh, ha]

/-- Witness for C7 at the Paris preferences. -/
theorem prompt_pure_and_contains_fields_witness :
    prefsParis.destination.data <:+: (create_llm_prompt prefsParis none []).data ∧
      create_llm_prompt prefsParis none [] = create_llm_prompt prefsParis none [] :=
  ⟨(prompt_pure_and_contains_fields prefsParis).1,
   (prompt_pure_and_contains_fields prefsParis).2.2.2.2 prefsParis none [] rfl rfl rfl⟩

lemma insertRatingDesc_perm (h : Hotel) (l : List Hotel) :
    (insertRatingDesc h l).Perm (h :: l) := by
  induction l with
  | nil => simp [insertRatingDesc]
  | cons x xs ih =>
    unfold insertRatingDesc
    split
    · exact ((ih.cons x).trans (List.Perm.swap h x xs))
    · exact List.Perm.refl _

lemma sort_by_rating_desc_perm (l : List Hotel) :
    (sort_by_rating_desc l).Perm l := by
  induction l with
  | nil => simp [sort_by_rating_desc]
  | cons x xs ih =>
    exact (insertRatingDesc_perm x (sort_by_rating_desc xs)).trans (ih.cons x)

lemma insertRatingDesc_sorted {l : List Hotel} (h : Hotel)
    (hs : l.Sorted (fun a b => hotelSortKey b ≤ hotelSortKey a)) :
    (insertRatingDesc h l).Sorted (fun a b => hotelSortKey b ≤ hotelSortKey a) := by
  induction l with
  | nil => simp [insertRatingDesc]
  | cons x xs ih =>
    rw [List.sorted_cons] at hs
    obtain ⟨hx, hxs⟩ := hs
    unfold insertRatingDesc
    split
    · rename_i hlt
      rw [List.sorted_cons]
      refine ⟨?_, ih hxs⟩
      intro y hy
      have hmem' : y = h ∨ y ∈ xs :=
        List.mem_cons.mp ((insertRatingDesc_perm h xs).mem_iff.mp hy)
      rcases hmem' with rfl | hmem
      · exact le_of_lt hlt
      · exact hx y hmem
    · rename_i hge
      push_neg at hge
      rw [List.sorted_cons]
      refine ⟨?_, List.sorted_cons.mpr ⟨hx, hxs⟩⟩
      intro y hy
      rcases List.mem_cons.mp hy with rfl | hmem
      · exact hge
      · exact le_trans (hx y hmem) hge

lemma sort_by_rating_desc_sorted (l : List Hotel) :
    (sort_by_rating_desc l).Sorted (fun a b => hotelSortKey b ≤ hotelSortKey a) := by
  induction l with
  | nil => simp [sort_by_rating_desc]
  | cons x xs ih => exact insertRatingDesc_sorted x ih

/-- C9: a non-empty search result list yields the parsed hotels sorted by
rating descending (a permutation of the parsed results, an absent rating
counting as 0); an empty result set, a transport failure or a non-2xx
response yield a retrieval error instead of a list. -/
theorem hotel_search_sorted_desc_or_error (resp : Except String (List SearchResult)) :
    (∀ results, resp = .ok results → results ≠ [] →
      search_hotels resp =
        .ok (sort_by_rating_desc (results.map parse_hotel_from_search_result)) ∧
      (sort_by_rating_desc (results.map parse_hotel_from_search_result)).Sorted
        (fun a b => hotelSortKey b ≤ hotelSortKey a) ∧
      (sort_by_rating_desc (results.map parse_hotel_from_search_result)).Perm
        (results.map parse_hotel_from_search_result) ∧
      (∀ h : Hotel, h.rating = none → hotelSortKey h = 0)) ∧
    (resp = .ok [] → ∃ e, search_hotels resp = .error e) ∧
    (∀ msg, resp = .error msg → ∃ e, search_hotels resp = .error e) := by
  refine ⟨?_, ?_, ?_⟩
  · intro results hresp hne
    subst hresp
    refine ⟨?_, sort_by_rating_desc_sorted _, sort_by_rating_desc_perm _, ?_⟩
    · cases results with
      | nil => exact absurd rfl hne
      | cons x xs => rfl
    · intro h hr
      simp [hotelSortKey, hr]
  · intro hresp
    subst hresp
    exact ⟨_, rfl⟩
  · intro msg hresp
    subst hresp
    exact ⟨_, rfl⟩

/-- Witness for C9 at a concrete two-result response (unrated hotel listed
first, 4.5-rated second). -/
theorem hotel_search_sorted_desc_or_error_witness :
    search_hotels (.ok searchResultsTwo) =
      .ok (sort_by_rating_desc (searchResultsTwo.map parse_hotel_from_search_result)) ∧
    (sort_by_rating_desc (searchResultsTwo.map parse_hotel_from_search_result)).Sorted
      (fun a b => hotelSortKey b ≤ hotelSortKey a) ∧
    (sort_by_rating_desc (searchResultsTwo.map parse_hotel_from_search_result)).Perm
      (searchResultsTwo.map parse_hotel_from_search_result) ∧
    (∀ h : Hotel, h.rating = none → hotelSortKey h = 0) :=
  (hotel_search_sorted_desc_or_error (.ok searchResultsTwo)).1 searchResultsTwo rfl
    (by decide)

/-- C8: preference validation records an error and leaves every other state
field untouched when a required field is missing (checked first, so nothing
is populated), when the start date does not strictly precede the end date
(with the end-after-start message), and when the budget converts to a value
that is zero or negative. -/
theorem preference_validation_rejects (state : AgentState)
    (ui : List (String × Json)) (hui : state.user_input = some ui) :
    (∀ k, firstMissing ui requiredFields = some k →
      parse_trip_preferences state =
        { state with error := some ("Missing required field: " ++ k) }) ∧
    (∀ s1 s2 d1 d2, firstMissing ui requiredFields = none →
      jsonGet ui "start_date" = some (.str s1) → parseDateYMD s1 = some d1 →
      jsonGet ui "end_date" = some (.str s2) → parseDateYMD s2 = some d2 →
      d2.key ≤ d1.key →
      parse_trip_preferences state =
        { state with error := some "End date must be after start date" }) ∧
    (∀ s1 s2 d1 d2 q, firstMissing ui requiredFields = none →
      jsonGet ui "start_date" = some (.str s1) → parseDateYMD s1 = some d1 →
      jsonGet ui "end_date" = some (.str s2) → parseDateYMD s2 = some d2 →
      d1.key < d2.key →
      (jsonGet ui "budget").bind pyFloatOf = some q → q ≤ 0 →
      parse_trip_preferences state =
        { state with error := some "Invalid budget value" }) := by
  refine ⟨?_, ?_, ?_⟩
  · intro k hmiss
    unfold parse_trip_preferences
    rw [hui]
    simp only [Option.getD_some, hmiss]
  · intro s1 s2 d1 d2 hmiss h1 hd1 h2 hd2 hle
    unfold parse_trip_preferences
    rw [hui]
    simp only [Option.getD_some, hmiss, h1, hd1, h2, hd2, if_pos hle]
  · intro s1 s2 d1 d2 q hmiss h1 hd1 h2 hd2 hlt hq hq0
    unfold parse_trip_preferences
    rw [hui]
    simp only [Option.getD_some, hmiss, h1, hd1, h2, hd2, if_neg (not_le.mpr hlt), hq,
      if_pos hq0]

set_option maxRecDepth 10000 in
/-- Witness for C8: the three concrete rejections (missing `budget` key,
equal dates, zero budget). -/
theorem preference_validation_rejects_witness :
    (parse_trip_preferences (stateOf uiNoBudget) =
      { stateOf uiNoBudget with error := some "Missing required field: budget" }) ∧
    (parse_trip_preferences (stateOf uiEqualDates) =
      { stateOf uiEqualDates with error := some "End date must be after start date" }) ∧
    (parse_trip_preferences (stateOf uiZeroBudget) =
      { stateOf uiZeroBudget with error := some "Invalid budget value" }) :=
  ⟨(preference_validation_rejects (stateOf uiNoBudget) uiNoBudget rfl).1 "budget"
      (by with_unfolding_all decide),
   (preference_validation_rejects (stateOf uiEqualDates) uiEqualDates rfl).2.1
      "2024-06-01" "2024-06-01" ⟨2024, 6, 1⟩ ⟨2024, 6, 1⟩
      (by with_unfolding_all decide) (by with_unfolding_all decide)
      (by with_unfolding_all decide) (by with_unfolding_all decide)
      (by with_unfolding_all decide) (by with_unfolding_all decide),
   (preference_validation_rejects (stateOf uiZeroBudget) uiZeroBudget rfl).2.2
      "2024-06-01" "2024-06-07" ⟨2024, 6, 1⟩ ⟨2024, 6, 7⟩ 0
      (by with_unfolding_all decide) (by with_unfolding_all decide)
      (by with_unfolding_all decide) (by with_unfolding_all decide)
      (by with_unfolding_all decide) (by with_unfolding_all decide)
      (by with_unfolding_all decide) (by with_unfolding_all decide)⟩

lemma processDays_mem_ok {l : List Json} {ps : List DayPlan} {day : Json}
    (h : processDays l = .ok ps) (hmem : day ∈ l) :
    ∃ p, processDay day = .ok p := by
  induction l generalizing ps with
  | nil => cases hmem
  | cons d rest ih =>
    simp only [processDays] at h
    cases hd : processDay d with
    | error e => rw [hd] at h; exact absurd h (by simp)
    | ok p =>
      rw [hd] at h
      cases hrest : processDays rest with
      | error e => rw [hrest] at h; exact absurd h (by simp)
      | ok ps' =>
        rcases List.mem_cons.mp hmem with rfl | hmem'
        · exact ⟨p, hd⟩
        · exact ih hrest hmem'

lemma mkActivities_mem_ok {l : List Json} {xs : List Activity} {act : Json}
    (h : mkActivities l = .ok xs) (hmem : act ∈ l) :
    ∃ a, mkActivity act = .ok a := by
  induction l generalizing xs with
  | nil => cases hmem
  | cons x rest ih =>
    simp only [mkActivities] at h
    cases hx : mkActivity x with
    | error e => rw [hx] at h; exact absurd h (by simp)
    | ok a =>
      rw [hx] at h
      cases hrest : mkActivities rest with
      | error e => rw [hrest] at h; exact absurd h (by simp)
      | ok xs' =>
        rcases List.mem_cons.mp hmem with rfl | hmem'
        · exact ⟨a, hx⟩
        · exact ih hrest hmem'

/-- Inverting a successful day construction, activity side: the day's
`activities` key held an array and every entry became an `Activity`. -/
lemma processDay_ok_activities {dm : JsonObj} {p : DayPlan}
    (h : processDay (.obj dm) = .ok p) :
    ∃ aa, jsonGet dm.pairs "activities" = some (.arr aa) ∧
      mkActivities aa.toList = .ok p.activities := by
  unfold processDay at h
  simp only [] at h
  split at h
  · exact absurd h (by simp)
  · rename_i av hav
    split at h
    · rename_i aa
      split at h
      · exact absurd h (by simp)
      · rename_i acts hacts
        split at h
        · exact absurd h (by simp)
        · rename_i tcv htcv
          split at h
          · exact absurd h (by simp)
          · rename_i day_cost hnum
            split at h
            · exact absurd h (by simp)
            · rename_i dv hdv
              split at h
              · rename_i ds
                split at h
                · exact absurd h (by simp)
                · rename_i d hdate
                  cases h
                  exact ⟨aa, requireKey_ok_iff.mp hav, hacts⟩
              · exact absurd h (by simp)
    · exact absurd h (by simp)

/-- A successfully constructed activity had all six required keys. -/
lemma mkActivity_ok_keys {am : JsonObj} {a : Activity}
    (h : mkActivity (.obj am) = .ok a) :
    (jsonGet am.pairs "name").isSome ∧ (jsonGet am.pairs "start_time").isSome ∧
      (jsonGet am.pairs "end_time").isSome ∧ (jsonGet am.pairs "location").isSome ∧
      (jsonGet am.pairs "description").isSome ∧ (jsonGet am.pairs "category").isSome := by
  unfold mkActivity at h
  simp only [] at h
  split at h
  · exact absurd h (by simp)
  · rename_i n hn
    split at h
    · exact absurd h (by simp)
    · rename_i st hst
      split at h
      · exact absurd h (by simp)
      · rename_i et het
        split at h
        · exact absurd h (by simp)
        · rename_i loc hloc
          split at h
          · exact absurd h (by simp)
          · rename_i desc hdesc
            split at h
            · exact absurd h (by simp)
            · rename_i cat hcat
              exact ⟨by simp [requireKey_ok_iff.mp hn], by simp [requireKey_ok_iff.mp hst],
                by simp [requireKey_ok_iff.mp het], by simp [requireKey_ok_iff.mp hloc],
                by simp [requireKey_ok_iff.mp hdesc], by simp [requireKey_ok_iff.mp hcat]⟩

/-- C5 (amended): the reconciler fails when the extracted text is not valid
JSON; when `daily_plans` is absent or empty; when some day's `date` is not
accepted by the `%Y-%m-%d` parse (which, unlike the literal `YYYY-MM-DD`
shape, also admits unpadded month/day digits); and when some activity lacks
one of the six required keys.  An activity carrying all six required keys
never fails, its optional `cost`/`booking_url`/`notes` defaulting to
absent. -/
theorem reconciler_failure_conditions :
    (∀ (prefs : TripPreferences) (hotel : Option Hotel) (r e : String),
      parse_llm_response r = .error e →
      ∃ msg, build_itinerary prefs hotel r = .error msg) ∧
    (∀ (prefs : TripPreferences) (hotel : Option Hotel) (r : String) (o : JsonObj),
      r ≠ "" → parse_llm_response r = .ok (.obj o) →
      (jsonGet o.pairs "daily_plans" = none ∨
        jsonGet o.pairs "daily_plans" = some (.arr .nil)) →
      ∃ msg, build_itinerary prefs hotel r = .error msg) ∧
    (∀ (prefs : TripPreferences) (hotel : Option Hotel) (r : String) (o : JsonObj)
      (dl : JsonArr) (day : Json),
      parse_llm_response r = .ok (.obj o) →
      jsonGet o.pairs "daily_plans" = some (.arr dl) →
      day ∈ dl.toList → dayDateOf day = none →
      ∃ msg, build_itinerary prefs hotel r = .error msg) ∧
    (∀ (prefs : TripPreferences) (hotel : Option Hotel) (r : String) (o : JsonObj)
      (dl : JsonArr) (dm am : JsonObj) (aa : JsonArr),
      parse_llm_response r = .ok (.obj o) →
      jsonGet o.pairs "daily_plans" = some (.arr dl) →
      (Json.obj dm) ∈ dl.toList →
      jsonGet dm.pairs "activities" = some (.arr aa) →
      (Json.obj am) ∈ aa.toList →
      (jsonGet am.pairs "name" = none ∨ jsonGet am.pairs "start_time" = none ∨
        jsonGet am.pairs "end_time" = none ∨ jsonGet am.pairs "location" = none ∨
        jsonGet am.pairs "description" = none ∨ jsonGet am.pairs "category" = none) →
      ∃ msg, build_itinerary prefs hotel r = .error msg) ∧
    (∀ (am : JsonObj) (n st et loc desc cat : Json),
      jsonGet am.pairs "name" = some n → jsonGet am.pairs "start_time" = some st →
      jsonGet am.pairs "end_time" = some et → jsonGet am.pairs "location" = some loc →
      jsonGet am.pairs "description" = some desc → jsonGet am.pairs "category" = some cat →
      mkActivity (.obj am) = .ok
        { name := n, start_time := st, end_time := et, location := loc,
          description := desc, category := cat, cost := getOpt am.pairs "cost",
          booking_url := getOpt am.pairs "booking_url",
          notes := getOpt am.pairs "notes" }) := by
  have toErr : ∀ (prefs : TripPreferences) (hotel : Option Hotel) (r : String),
      (∀ it, build_itinerary prefs hotel r ≠ .ok it) →
      ∃ msg, build_itinerary prefs hotel r = .error msg := by
    intro prefs hotel r hno
    cases hb : build_itinerary prefs hotel r with
    | ok it => exact absurd hb (hno it)
    | error msg => exact ⟨msg, rfl⟩
  have stepsOfOk : ∀ (prefs : TripPreferences) (hotel : Option Hotel) (r : String)
      (it : Itinerary), build_itinerary prefs hotel r = .ok it →
      build_itinerary_steps prefs hotel r = .ok it := by
    intro prefs hotel r it h
    unfold build_itinerary at h
    cases hs : build_itinerary_steps prefs hotel r with
    | ok it' => rw [hs] at h; cases h; rfl
    | error e => rw [hs] at h; exact absurd h (by simp)
  refine ⟨?_, ?_, ?_, ?_, ?_⟩
  · intro prefs hotel r e hparse
    unfold build_itinerary build_itinerary_steps
    by_cases hr : r = ""
    · rw [if_pos hr]
      exact ⟨_, rfl⟩
    · rw [if_neg hr]
      simp only [hparse]
      exact ⟨_, rfl⟩
  · intro prefs hotel r o hr hparse hdp
    unfold build_itinerary build_itinerary_steps
    rw [if_neg hr]
    simp only [hparse]
    rcases hdp with hdp | hdp
    · simp only [hdp]
      exact ⟨_, rfl⟩
    · simp only [hdp]
      exact ⟨_, rfl⟩
  · intro prefs hotel r o dl day hparse hdp hmem hdate
    refine toErr prefs hotel r ?_
    intro it hok
    obtain ⟨o', dl', plans, hparse', hdp', _, hplans, _⟩ :=
      build_steps_ok_inv (stepsOfOk prefs hotel r it hok)
    rw [hparse] at hparse'
    injection hparse' with h1
    injection h1 with h2
    subst h2
    rw [hdp] at hdp'
    injection hdp' with h3
    injection h3 with h4
    subst h4
    obtain ⟨p, hp⟩ := processDays_mem_ok hplans hmem
    have := (processDay_ok_spec hp).2
    rw [hdate] at this
    exact absurd this (by simp)
  · intro prefs hotel r o dl dm am aa hparse hdp hmemd hact hmema hmiss
    refine toErr prefs hotel r ?_
    intro it hok
    obtain ⟨o', dl', plans, hparse', hdp', _, hplans, _⟩ :=
      build_steps_ok_inv (stepsOfOk prefs hotel r it hok)
    rw [hparse] at hparse'
    injection hparse' with h1
    injection h1 with h2
    subst h2
    rw [hdp] at hdp'
    injection hdp' with h3
    injection h3 with h4
    subst h4
    obtain ⟨p, hp⟩ := processDays_mem_ok hplans hmemd
    obtain ⟨aa', haa', hacts⟩ := processDay_ok_activities hp
    rw [hact] at haa'
    injection haa' with h5
    injection h5 with h6
    subst h6
    obtain ⟨a, ha⟩ := mkActivities_mem_ok hacts hmema
    obtain ⟨k1, k2, k3, k4, k5, k6⟩ := mkActivity_ok_keys ha
    rcases hmiss with hm | hm | hm | hm | hm | hm <;> simp [hm] at k1 k2 k3 k4 k5 k6
  · intro am n st et loc desc cat hn hst het hloc hdesc hcat
    unfold mkActivity
    simp only [requireKey_ok_iff.mpr hn, requireKey_ok_iff.mpr hst,
      requireKey_ok_iff.mpr het, requireKey_ok_iff.mpr hloc,
      requireKey_ok_iff.mpr hdesc, requireKey_ok_iff.mpr hcat]

set_option maxRecDepth 10000 in
/-- Witness for C5: the empty-`daily_plans` rejection and the construction
of an activity with all required keys and only `cost` among the optional
ones. -/
theorem reconciler_failure_conditions_witness :
    (∃ msg, build_itinerary prefsParis none replyEmptyPlans = .error msg) ∧
    mkActivity (.obj actLouvreObj) = .ok
      { name := .str "Louvre", start_time := .str "09:00", end_time := .str "12:00",
        location := .str "Paris", description := .str "Museum visit",
        category := .str "culture", cost := getOpt actLouvreObj.pairs "cost",
        booking_url := getOpt actLouvreObj.pairs "booking_url",
        notes := getOpt actLouvreObj.pairs "notes" } :=
  ⟨reconciler_failure_conditions.2.1 prefsParis none replyEmptyPlans objEmptyPlans
      (by with_unfolding_all decide) (by with_unfolding_all decide)
      (Or.inr (by with_unfolding_all decide)),
   reconciler_failure_conditions.2.2.2.2 actLouvreObj (.str "Louvre") (.str "09:00")
      (.str "12:00") (.str "Paris") (.str "Museum visit") (.str "culture")
      (by with_unfolding_all decide) (by with_unfolding_all decide)
      (by with_unfolding_all decide) (by with_unfolding_all decide)
      (by with_unfolding_all decide) (by with_unfolding_all decide)⟩

set_option maxRecDepth 10000 in
/-- Counterexample for C5 as stated: the day date `2024-6-1` does not match
the literal `YYYY-MM-DD` shape, yet the reply carrying it builds
successfully (`strptime` accepts unpadded month and day digits). -/
theorem strict_date_shape_not_required :
    isStrictYMD "2024-6-1" = false ∧
      (build_itinerary prefsParis none replyLenientDate).isOk = true := by
  with_unfolding_all decide

/-! Lemmas about `isPrefixOf`, `containsSeq` and `splitGo`, towards the
fenced-extraction property. -/

lemma nil_isPrefixOf (l : List Char) : [].isPrefixOf l = true := by
  cases l <;> rfl

lemma isPrefixOf_append_self (l b : List Char) : l.isPrefixOf (l ++ b) = true := by
  induction l with
  | nil => exact nil_isPrefixOf b
  | cons c r ih => simp [List.isPrefixOf, ih]

lemma isPrefixOf_of_append_left {a b l : List Char}
    (h : (a ++ b).isPrefixOf l = true) : a.isPrefixOf l = true := by
  induction a generalizing l with
  | nil => exact nil_isPrefixOf l
  | cons c r ih =>
    cases l with
    | nil => simp [List.isPrefixOf] at h
    | cons x xs =>
      simp only [List.cons_append, List.isPrefixOf, Bool.and_eq_true, beq_iff_eq] at h ⊢
      exact ⟨h.1, ih h.2⟩

lemma isPrefixOf_split {sep X Y : List Char}
    (h : sep.isPrefixOf (X ++ Y) = true) :
    sep.isPrefixOf X = true ∨
      (X.isPrefixOf sep = true ∧ (sep.drop X.length).isPrefixOf Y = true) := by
  induction X generalizing sep with
  | nil => exact .inr ⟨nil_isPrefixOf sep, h⟩
  | cons x X' ih =>
    cases sep with
    | nil => exact .inl (nil_isPrefixOf _)
    | cons s sep' =>
      simp only [List.cons_append, List.isPrefixOf, Bool.and_eq_true, beq_iff_eq] at h
      obtain ⟨rfl, h2⟩ := h
      rcases ih h2 with h3 | ⟨h3, h4⟩
      · exact .inl (by simp [List.isPrefixOf, h3])
      · exact .inr ⟨by simp [List.isPrefixOf, h3], by simpa using h4⟩

lemma eq_of_isPrefixOf_of_length {X Y : List Char}
    (h : X.isPrefixOf Y = true) (hl : X.length = Y.length) : X = Y := by
  induction X generalizing Y with
  | nil => cases Y with | nil => rfl | cons _ _ => simp at hl
  | cons c r ih =>
    cases Y with
    | nil => simp [List.isPrefixOf] at h
    | cons y ys =>
      simp only [List.isPrefixOf, Bool.and_eq_true, beq_iff_eq] at h
      simp only [List.length_cons, Nat.succ_inj] at hl
      rw [h.1, ih h.2 hl]

lemma containsSeq_of_isPrefixOf {sep l : List Char}
    (h : sep.isPrefixOf l = true) : containsSeq sep l = true := by
  cases l with
  | nil =>
    cases sep with
    | nil => rfl
    | cons _ _ => simp [List.isPrefixOf] at h
  | cons c r => simp [containsSeq, h]

lemma containsSeq_tail {sep : List Char} {c : Char} {r : List Char}
    (h : containsSeq sep r = true) : containsSeq sep (c :: r) = true := by
  simp [containsSeq, h]

lemma containsSeq_mono_sep {a b l : List Char}
    (h : containsSeq (a ++ b) l = true) : containsSeq a l = true := by
  induction l with
  | nil =>
    simp only [containsSeq, List.isEmpty_iff, List.append_eq_nil] at h
    simp [containsSeq, h.1]
  | cons c r ih =>
    simp only [containsSeq, Bool.or_eq_true] at h ⊢
    rcases h with h | h
    · exact .inl (isPrefixOf_of_append_left h)
    · exact .inr (ih h)

lemma isPrefixOf_refl (l : List Char) : l.isPrefixOf l = true := by
  have h := isPrefixOf_append_self l []
  simp only [List.append_nil] at h
  exact h

/-- If the fence does not start at the head of `c :: cs'`, it does not start
there either when `c :: cs'` is followed by a newline and the fence (a match
cannot straddle the newline). -/
lemma fence_no_straddle {c : Char} {cs' : List Char}
    (h1 : fenceChars.isPrefixOf (c :: cs') = false) :
    fenceChars.isPrefixOf ((c :: cs') ++ ('\n' :: fenceChars)) = false := by
  by_contra hc
  rw [Bool.not_eq_false] at hc
  rcases isPrefixOf_split hc with h | ⟨hpre, hdrop⟩
  · rw [h] at h1
    exact absurd h1 (by simp)
  · match cs' with
    | [] => simp [fenceChars, List.isPrefixOf] at hdrop
    | [d] => simp [fenceChars, List.isPrefixOf] at hdrop
    | d :: e :: rest =>
      have hparts : c = '`' ∧ d = '`' ∧ e = '`' ∧ rest = [] := by
        simp only [fenceChars, List.isPrefixOf, Bool.and_eq_true, beq_iff_eq] at hpre
        obtain ⟨hc', hd', he', hrest⟩ := hpre
        cases rest with
        | nil => exact ⟨hc', hd', he', rfl⟩
        | cons _ _ => simp [List.isPrefixOf] at hrest
      obtain ⟨rfl, rfl, rfl, rfl⟩ := hparts
      exact absurd h1 (by decide)

/-- The `"```json"` marker does not occur in `cs ++ "\n```"` when `cs` is
fence-free. -/
lemma no_fenceJson_in_padded {cs : List Char}
    (hs : containsSeq fenceChars cs = false) :
    containsSeq fenceJsonChars (cs ++ ('\n' :: fenceChars)) = true → False := by
  induction cs with
  | nil => intro h; exact absurd h (by decide)
  | cons c cs' ih =>
    intro h
    simp only [containsSeq, Bool.or_eq_true] at hs h
    rw [Bool.or_eq_false_iff] at hs
    rcases h with h | h
    · have hfence : fenceChars.isPrefixOf ((c :: cs') ++ ('\n' :: fenceChars)) = true := by
        have : fenceJsonChars = fenceChars ++ ['j', 's', 'o', 'n'] := rfl
        rw [this] at h
        exact isPrefixOf_of_append_left (by simp only [List.cons_append] at h ⊢; exact h)
      rw [fence_no_straddle hs.1] at hfence
      exact absurd hfence (by simp)
    · exact ih hs.2 (by simpa using h)

/-- The closing-fence scan finds no match strictly inside `cs ++ "\n"` when
`cs` is fence-free. -/
lemma noFenceStartIn_padded {cs : List Char}
    (hs : containsSeq fenceChars cs = false) :
    noFenceStartIn (cs ++ ['\n']) = true := by
  induction cs with
  | nil => decide
  | cons c cs' ih =>
    simp only [containsSeq, Bool.or_eq_true] at hs
    rw [Bool.or_eq_false_iff] at hs
    simp only [List.cons_append, noFenceStartIn, Bool.and_eq_true]
    constructor
    · have h2 := fence_no_straddle hs.1
      simp only [List.cons_append, List.append_assoc] at h2 ⊢
      simp [h2]
    · exact ih hs.2

lemma splitGo_nil (sep acc : List Char) (skip : Nat) :
    splitGo sep acc skip [] = [acc.reverse] := rfl

lemma splitGo_cons_zero (sep acc : List Char) (c : Char) (r : List Char) :
    splitGo sep acc 0 (c :: r) =
      if sep.isPrefixOf (c :: r) then
        acc.reverse :: splitGo sep [] (sep.length - 1) r
      else splitGo sep (c :: acc) 0 r := rfl

lemma splitGo_cons_skip (sep acc : List Char) (c : Char) (r : List Char) (k : Nat) :
    splitGo sep acc (k + 1) (c :: r) = splitGo sep acc k r := rfl

lemma splitGo_skip (sep acc : List Char) (X r : List Char) :
    splitGo sep acc X.length (X ++ r) = splitGo sep acc 0 r := by
  induction X with
  | nil => rfl
  | cons c X' ih => exact ih

lemma splitGo_head_match {sep : List Char} (hne : sep ≠ []) (acc B : List Char) :
    splitGo sep acc 0 (sep ++ B) = acc.reverse :: splitGo sep [] 0 B := by
  cases sep with
  | nil => exact absurd rfl hne
  | cons c sep' =>
    show splitGo (c :: sep') acc 0 (c :: (sep' ++ B)) = _
    rw [splitGo_cons_zero, if_pos]
    · show _ :: splitGo (c :: sep') [] sep'.length (sep' ++ B) = _
      rw [splitGo_skip]
    · exact isPrefixOf_append_self (c :: sep') B

lemma splitGo_no_match {sep l : List Char} (h : containsSeq sep l = false)
    (acc : List Char) : splitGo sep acc 0 l = [acc.reverse ++ l] := by
  induction l generalizing acc with
  | nil => simp [splitGo_nil]
  | cons c r ih =>
    simp only [containsSeq, Bool.or_eq_false_iff] at h
    rw [splitGo_cons_zero, if_neg (by simp [h.1])]
    rw [ih h.2]
    simp

lemma splitGo_walk {A : List Char} (h : noFenceStartIn A = true) (acc : List Char) :
    splitGo fenceChars acc 0 (A ++ fenceChars) = [acc.reverse ++ A, []] := by
  induction A generalizing acc with
  | nil =>
    show splitGo fenceChars acc 0 ('`' :: ['`', '`']) = _
    rw [splitGo_cons_zero, if_pos (by decide : fenceChars.isPrefixOf ['`', '`', '`'] = true)]
    show acc.reverse :: splitGo fenceChars [] 2 ['`', '`'] = _
    simp [splitGo_cons_skip, splitGo_nil]
  | cons c A' ih =>
    simp only [noFenceStartIn, Bool.and_eq_true] at h
    show splitGo fenceChars acc 0 (c :: (A' ++ fenceChars)) = _
    rw [splitGo_cons_zero, if_neg]
    · rw [ih h.2]
      simp
    · have h1 := h.1
      simp only [List.cons_append, Bool.not_eq_true'] at h1
      simp [h1]

lemma trimWs_cons_nl (l : List Char) : trimWs ('\n' :: l) = trimWs l := by
  have : isJsonWs '\n' = true := rfl
  simp [trimWs, List.dropWhile_cons, this]

lemma trimWs_append_nl (l : List Char) : trimWs (l ++ ['\n']) = trimWs l := by
  unfold trimWs
  rw [List.dropWhile_append]
  by_cases he : (l.dropWhile isJsonWs).isEmpty
  · rw [if_pos he]
    rw [List.isEmpty_iff] at he
    rw [he]
    rfl
  · rw [if_neg he]
    rw [List.reverse_append]
    show ((('\n' :: (l.dropWhile isJsonWs).reverse)).dropWhile isJsonWs).reverse = _
    rw [List.dropWhile_cons]
    rfl

lemma containsSeq_fenceJson_of_fence_free {cs : List Char}
    (hs : containsSeq fenceChars cs = false) :
    containsSeq fenceJsonChars cs = false := by
  by_contra hc
  rw [Bool.not_eq_false] at hc
  have : containsSeq fenceChars cs = true := by
    have hsplit : fenceJsonChars = fenceChars ++ ['j', 's', 'o', 'n'] := rfl
    rw [hsplit] at hc
    exact containsSeq_mono_sep hc
  rw [this] at hs
  exact absurd hs (by simp)

lemma extract_bare {cs : List Char} (hs : containsSeq fenceChars cs = false) :
    extractJsonPayload cs = cs := by
  unfold extractJsonPayload
  rw [if_neg (by simp [containsSeq_fenceJson_of_fence_free hs]),
    if_neg (by simp [hs])]

lemma extract_wrapped {cs : List Char} (hs : containsSeq fenceChars cs = false) :
    extractJsonPayload ((fenceJsonChars ++ ['\n']) ++ cs ++ ('\n' :: fenceChars)) =
      '\n' :: (cs ++ ['\n']) := by
  have hbodyEq : (['\n'] ++ cs ++ ('\n' :: fenceChars)) =
      ('\n' :: (cs ++ ['\n'])) ++ fenceChars := by simp
  have hwrapEq : ((fenceJsonChars ++ ['\n']) ++ cs ++ ('\n' :: fenceChars)) =
      fenceJsonChars ++ (['\n'] ++ cs ++ ('\n' :: fenceChars)) := by simp
  have hbodyNo : containsSeq fenceJsonChars (['\n'] ++ cs ++ ('\n' :: fenceChars)) = false := by
    by_contra hc
    rw [Bool.not_eq_false] at hc
    have h1 : containsSeq fenceJsonChars (cs ++ ('\n' :: fenceChars)) = true := by
      simp only [List.cons_append, List.nil_append, containsSeq, Bool.or_eq_true] at hc
      rcases hc with hc | hc
      · exact absurd hc (by simp [fenceJsonChars, List.isPrefixOf])
      · exact hc
    exact no_fenceJson_in_padded hs h1
  have hnoStart : noFenceStartIn ('\n' :: (cs ++ ['\n'])) = true := by
    simp only [noFenceStartIn, Bool.and_eq_true]
    refine ⟨by simp [fenceChars, List.isPrefixOf], noFenceStartIn_padded hs⟩
  unfold extractJsonPayload
  rw [if_pos]
  · unfold splitOnSeq
    rw [hwrapEq, splitGo_head_match (by simp [fenceJsonChars]) [] _]
    rw [splitGo_no_match hbodyNo []]
    show (splitOnSeq fenceChars (['\n'] ++ cs ++ ('\n' :: fenceChars))).getD 0 [] = _
    rw [hbodyEq]
    unfold splitOnSeq
    rw [splitGo_walk hnoStart []]
    rfl
  · rw [hwrapEq]
    exact containsSeq_of_isPrefixOf (isPrefixOf_append_self _ _)

/-- C3 (amended): for every reply payload not containing the fence marker
` ``` `, wrapping it in a ` ```json ` fenced block gives exactly the same
extraction-and-parse outcome as sending it bare (whitespace around the
payload is immaterial to `json.loads`). -/
theorem fenced_json_wrap_parses_as_bare (s : String)
    (hs : containsSeq fenceChars s.data = false) :
    parse_llm_response ("```json\n" ++ s ++ "\n```") = parse_llm_response s := by
  have h1 : ("```json\n" ++ s ++ "\n```").data =
      "```json\n".data ++ s.data ++ "\n```".data := by
    simp [String.data_append]
  have h2 : "```json\n".data = fenceJsonChars ++ ['\n'] := rfl
  have h3 : "\n```".data = '\n' :: fenceChars := rfl
  have hdata : ("```json\n" ++ s ++ "\n```").data =
      (fenceJsonChars ++ ['\n']) ++ s.data ++ ('\n' :: fenceChars) := by
    rw [h1, h2, h3]
  have ht : jsonParseL ('\n' :: (s.data ++ ['\n'])) = jsonParseL s.data := by
    simp only [jsonParseL, trimWs_cons_nl, trimWs_append_nl]
  unfold parse_llm_response
  rw [hdata, extract_wrapped hs, extract_bare hs, ht]

set_option maxRecDepth 10000 in
/-- Witness for C3 at the concrete two-day reply (which contains no fence
marker). -/
theorem fenced_json_wrap_parses_as_bare_witness :
    parse_llm_response ("```json\n" ++ replyTwoDays ++ "\n```") =
      parse_llm_response replyTwoDays :=
  fenced_json_wrap_parses_as_bare replyTwoDays (by with_unfolding_all decide)

set_option maxRecDepth 10000 in
/-- Counterexample for C3 as stated: `"a```5```b"` is a valid JSON payload
(a string literal), yet the fenced wrapping parses differently from the
bare reply — the fence marker inside the payload derails both extractions,
one to the number 5, the other to a parse failure. -/
theorem fenced_wrap_differs_on_fence_payload :
    (jsonParseL fencePayload.data).isOk = true ∧
    parse_llm_response fencePayload = .ok (Json.num 5) ∧
    (parse_llm_response ("```json\n" ++ fencePayload ++ "\n```")).isOk = false := by
  with_unfolding_all decide

/-! Evaluation checks of the embedding on concrete inputs. -/

example : jsonParseL "  \x7b\"a\": [1, 2.5, -3e2], \"b\": null\x7d ".data =
    .ok (Json.obj (JsonObj.ofPairs
      [("a", Json.arr (JsonArr.ofList [Json.num 1, Json.num (5/2), Json.num (-300)])),
       ("b", Json.null)])) := by with_unfolding_all decide

example : jsonParseL "01".data = .error "Extra data" := by with_unfolding_all decide
example : (jsonParseL "\"a\\u00e9\"".data).isOk = true := by with_unfolding_all decide
example : jsonParseL "truex".data = .error "Extra data" := by with_unfolding_all decide
example : parseDateYMD "2024-06-01" = some ⟨2024, 6, 1⟩ := by decide
example : parseDateYMD "2024-6-1" = some ⟨2024, 6, 1⟩ := by decide
example : parseDateYMD "2024-13-01" = none := by decide
example : parseDateYMD "2024-02-30" = none := by decide
example : parseDateYMD "2024-02-29" = some ⟨2024, 2, 29⟩ := by decide
example : parseDateYMD "2023-02-29" = none := by decide
example : parseDateYMD "2024-06-01x" = none := by decide

example : splitOnSeq "```".data "a```X```b".data = ["a".data, "X".data, "b".data] := by decide
example : extractJsonPayload "pre ```json\n\x7b\"a\":1\x7d\n``` post".data = "\n\x7b\"a\":1\x7d\n".data := by decide
example : extractJsonPayload "no fence".data = "no fence".data := by decide

set_option maxRecDepth 10000 in
example : (build_itinerary prefsParis none replyTwoDays).isOk = true := by
  with_unfolding_all decide

set_option maxRecDepth 10000 in
example : (build_itinerary prefsParis none ("```json\n" ++ replyTwoDays ++ "\n```")).isOk = true := by
  with_unfolding_all decide

set_option maxRecDepth 10000

example : extract_rating "Rated 4.5 / 5 with pool and free wifi. Rooms from $120.00." =
    some (9/2) := by with_unfolding_all decide
example : extract_price "Rated 4.5 / 5 with pool and free wifi. Rooms from $120.00." =
    some 120 := by with_unfolding_all decide
example : extract_rating "4.55/5" = some 55 := by with_unfolding_all decide
example : extract_rating "$12.3 x" = none := by with_unfolding_all decide
example : extract_price "$12.345" = some (617/50) := by with_unfolding_all decide
example : extract_price "$.50 then $7" = some 7 := by with_unfolding_all decide
example : parsePyFloat " 12.5e1 " = some 125 := by with_unfolding_all decide
example : parsePyFloat "abc" = none := by with_unfolding_all decide
example : jsonGet [("a", .num 1), ("a", .num 2)] "a" = some (.num 2) := by decide
